import Mathlib

/-!
Verification of the intent authorization and execution pipeline of the
shade-agent-template repository, against a shallow embedding of its
TypeScript source.

Conventions of the embedding:
* JavaScript strings are Lean `String`s (or `List Char` / `List Nat`
  codepoint lists where byte-level reasoning is needed).
* Optional / possibly-`undefined` fields are `Option` fields; JavaScript
  truthiness of an optional string (`undefined` and `""` are falsy) is the
  predicate `optTruthy`.
* Functions that `throw` are embedded as `Except String` computations,
  carrying the source's error messages verbatim.
* External cryptographic primitives (Ed25519, SHA-256) are parameters of
  the definitions that use them; idealized behaviour (deterministic
  signatures, injective hash) is packaged in the `Ed25519Scheme`
  structure.
-/

set_option maxHeartbeats 1000000
set_option maxRecDepth 10000

/-- JavaScript truthiness of an optional string: `undefined` and the empty
string are falsy, every other string is truthy. -/
def optTruthy : Option String → Bool
  | none => false
  | some s => s ≠ ""

/-- Test for the regular expression `^\d+$` used by the validator:
a non-empty string of ASCII digits. -/
def isNumericString (s : String) : Bool :=
  !s.data.isEmpty && s.data.all (fun c => c.isDigit)

/-- From src/constants.ts. -/
def SOL_NATIVE_MINT : String := "So11111111111111111111111111111111111111112"

/-- From src/queue/validation.ts. -/
def DEFAULT_SLIPPAGE_BPS : Nat := 300

/-- Embedding of the open metadata record of an intent
(src/queue/types.ts, `IntentMetadata`).  The fields the pipeline reads are
explicit; all other entries of the open record are kept in `extra`. -/
structure IntentMetadata where
  action : Option String := none
  marketAddress : Option String := none
  mintAddress : Option String := none
  targetDefuseAssetId : Option String := none
  useIntents : Bool := false
  intentsCompleted : Bool := false
  extra : List (String × String) := []
  deriving DecidableEq, Repr

/-- Embedding of the `UserSignature` union of src/queue/types.ts: the NEAR
NEP-413 and legacy variants carry `nonce` and `recipient`, the Solana
variant does not, so both are optional here (shape-based dispatch tests
their presence). -/
structure UserSignature where
  message : String
  signature : String
  publicKey : String
  nonce : Option String := none
  recipient : Option String := none
  deriving DecidableEq, Repr

/-- Embedding of `IntentMessage` (src/queue/types.ts). -/
structure IntentMessage where
  intentId : String
  sourceChain : String
  sourceAsset : String
  sourceAmount : String
  destinationChain : String
  intermediateAsset : Option String := none
  intermediateAmount : Option String := none
  destinationAmount : Option String := none
  finalAsset : String
  slippageBps : Option Nat := none
  userDestination : String
  agentDestination : String
  intentsDepositAddress : Option String := none
  depositMemo : Option String := none
  originTxHash : Option String := none
  sessionId : Option String := none
  metadata : Option IntentMetadata := none
  nearPublicKey : Option String := none
  refundAddress : Option String := none
  userSignature : Option UserSignature := none
  deriving DecidableEq, Repr

/-- Embedding of `ValidatedIntent` (src/queue/types.ts): an
`IntentMessage` whose `slippageBps` has been resolved to a number. -/
structure ValidatedIntent where
  intentId : String
  sourceChain : String
  sourceAsset : String
  sourceAmount : String
  destinationChain : String
  intermediateAsset : Option String := none
  intermediateAmount : Option String := none
  destinationAmount : Option String := none
  finalAsset : String
  slippageBps : Nat
  userDestination : String
  agentDestination : String
  intentsDepositAddress : Option String := none
  depositMemo : Option String := none
  originTxHash : Option String := none
  sessionId : Option String := none
  metadata : Option IntentMetadata := none
  nearPublicKey : Option String := none
  refundAddress : Option String := none
  userSignature : Option UserSignature := none
  deriving DecidableEq, Repr

/-- From src/queue/validation.ts, `isKaminoDepositMetadata`. -/
def isKaminoDepositMetadata : Option IntentMetadata → Bool
  | some md => md.action = some "kamino-deposit"
  | none => false

/-- From src/queue/validation.ts, `isKaminoWithdrawMetadata`. -/
def isKaminoWithdrawMetadata : Option IntentMetadata → Bool
  | some md => md.action = some "kamino-withdraw"
  | none => false

/-- From src/queue/validation.ts, `validateKaminoDepositIntent` (only
called when the metadata carries the kamino-deposit action). -/
def validateKaminoDepositIntent (m : IntentMessage) : Except String Unit :=
  let md := (m.metadata.getD {})
  if !optTruthy md.marketAddress then
    .error "Kamino deposit requires metadata.marketAddress"
  else if !optTruthy md.mintAddress then
    .error "Kamino deposit requires metadata.mintAddress"
  else .ok ()

/-- From src/queue/validation.ts, `validateKaminoWithdrawIntent`. -/
def validateKaminoWithdrawIntent (m : IntentMessage) : Except String Unit :=
  let md := (m.metadata.getD {})
  if !optTruthy md.marketAddress then
    .error "Kamino withdraw requires metadata.marketAddress"
  else if !optTruthy md.mintAddress then
    .error "Kamino withdraw requires metadata.mintAddress"
  else .ok ()

/-- From src/queue/validation.ts, `getDefaultIntermediateAsset`. -/
def getDefaultIntermediateAsset (m : IntentMessage) : Except String String :=
  if m.destinationChain = "solana" then .ok SOL_NATIVE_MINT
  else .error "intermediateAsset missing"

/-- Embedding of `validateIntent` (src/queue/validation.ts), checks in
source order, error messages verbatim. -/
def validateIntent (m : IntentMessage) : Except String ValidatedIntent := do
  if m.intentId = "" then throw "intentId missing"
  if m.destinationChain ≠ "solana" then throw "destinationChain must be solana"
  if m.userDestination = "" then throw "userDestination missing"
  if m.agentDestination = "" then throw "agentDestination missing"
  if m.sourceAsset = "" then throw "sourceAsset missing"
  if m.finalAsset = "" then throw "finalAsset missing"
  if !isNumericString m.sourceAmount then
    throw "sourceAmount must be a numeric string in base units"
  match m.destinationAmount with
  | some d =>
    if !isNumericString d then
      throw "destinationAmount must be a numeric string in base units if provided"
  | none => pure ()
  if isKaminoDepositMetadata m.metadata then validateKaminoDepositIntent m
  if isKaminoWithdrawMetadata m.metadata then validateKaminoWithdrawIntent m
  let intermediateAsset ←
    if optTruthy m.intermediateAsset then pure (m.intermediateAsset.getD "")
    else getDefaultIntermediateAsset m
  pure
    { intentId := m.intentId
      sourceChain := m.sourceChain
      sourceAsset := m.sourceAsset
      sourceAmount := m.sourceAmount
      destinationChain := m.destinationChain
      intermediateAsset := some intermediateAsset
      intermediateAmount := m.intermediateAmount
      destinationAmount := m.destinationAmount
      finalAsset := m.finalAsset
      slippageBps := m.slippageBps.getD DEFAULT_SLIPPAGE_BPS
      userDestination := m.userDestination
      agentDestination := m.agentDestination
      intentsDepositAddress := m.intentsDepositAddress
      depositMemo := m.depositMemo
      originTxHash := m.originTxHash
      sessionId := m.sessionId
      metadata := m.metadata
      nearPublicKey := m.nearPublicKey
      refundAddress := m.refundAddress
      userSignature := m.userSignature }

/-- Side effects recorded by the POST /api/intents handler: intents pushed
to the Redis queue and status-store writes. -/
structure HandlerEffects where
  enqueued : List ValidatedIntent := []
  statusWrites : List (String × String) := []
  deriving DecidableEq, Repr

/-- HTTP response of the handler. -/
structure HandlerResponse where
  status : Nat
  body : String
  deriving DecidableEq, Repr

/-- Validation / enqueue tail of the POST /api/intents handler
(src/routes/intents.ts): validate, then enqueue and write the pending
status, 202 on success, 400 on validation failure. -/
def postIntentsValidateAndEnqueue (payload : IntentMessage) :
    HandlerResponse × HandlerEffects :=
  match validateIntent payload with
  | .error e => ({ status := 400, body := e }, {})
  | .ok v =>
    ({ status := 202, body := v.intentId },
     { enqueued := [v], statusWrites := [(v.intentId, "pending")] })

/-- Embedding of the POST /api/intents handler (src/routes/intents.ts):
requires either a deposit proof (truthy originTxHash together with truthy
intentsDepositAddress) or a userSignature; a present userSignature must
pass NEP-413 verification (`verifySig` abstracts `verifyNearSignature`).
Rejections return 403 with no enqueue and no status write. -/
def postIntents (enableQueue : Bool) (verifySig : UserSignature → Bool)
    (payload : IntentMessage) : HandlerResponse × HandlerEffects :=
  if !enableQueue then
    ({ status := 503, body := "Queue consumer is disabled" }, {})
  else
    let hasDepositProof :=
      optTruthy payload.originTxHash && optTruthy payload.intentsDepositAddress
    let hasSignatureProof := payload.userSignature.isSome
    if !hasDepositProof && !hasSignatureProof then
      ({ status := 403,
         body := "Intent requires verification: either originTxHash + intentsDepositAddress (for deposits) or userSignature (for withdrawals)" },
       {})
    else
      match payload.userSignature with
      | some s =>
        if !verifySig s then
          ({ status := 403, body := "Invalid userSignature" }, {})
        else postIntentsValidateAndEnqueue payload
      | none => postIntentsValidateAndEnqueue payload

/-- Status-store updates written by the consumer and the poller
(src/state/status.ts `setStatus` payloads, projected to the fields the
claims are about). -/
inductive StatusUpdate where
  | processing (detail : String)
  | succeeded (txId : String)
  | failed (error : String)
  deriving DecidableEq, Repr

/-- Detail string of the attempt-start status written by
`processIntentWithRetry`. -/
def attemptDetail (a maxA : Nat) : String :=
  "attempt " ++ toString a ++ "/" ++ toString maxA

/-- Detail string of the retrying status written by
`processIntentWithRetry`. -/
def retryingDetail (a maxA : Nat) : String :=
  "retrying (attempt " ++ toString a ++ "/" ++ toString maxA ++ ")"

/-- Observable trace of one `processIntentWithRetry` run: the status
updates in order, the sleep durations in order, how many items were moved
to the dead-letter store, and how many times the execution flow was
invoked. -/
structure RunTrace where
  statuses : List StatusUpdate
  sleeps : List Nat
  deadLetters : Nat
  flowCalls : Nat
  deriving DecidableEq, Repr

/-- Embedding of `processIntentWithRetry` (src/queue/consumer.ts).  The
execution flow is abstracted as `flow : Nat → Except String String`
mapping the 1-based attempt number to the flow's error or resulting txId;
`attempt` is the loop counter (initially 0).  Each loop iteration mirrors
the source: increment the counter, write the processing status, run the
flow; on success write succeeded and stop; on failure either (last
attempt) write failed, dead-letter the raw item and stop, or write the
retrying status, sleep `backoff * attempt` and iterate. -/
def processIntentWithRetry (maxA backoff : Nat)
    (flow : Nat → Except String String) (attempt : Nat) : RunTrace :=
  if h : attempt < maxA then
    let a := attempt + 1
    match flow a with
    | .ok tx =>
      { statuses := [.processing (attemptDetail a maxA), .succeeded tx],
        sleeps := [], deadLetters := 0, flowCalls := 1 }
    | .error e =>
      if maxA ≤ a then
        { statuses := [.processing (attemptDetail a maxA), .failed e],
          sleeps := [], deadLetters := 1, flowCalls := 1 }
      else
        let rest := processIntentWithRetry maxA backoff flow a
        { statuses := .processing (attemptDetail a maxA) ::
            .processing (retryingDetail (a + 1) maxA) :: rest.statuses,
          sleeps := backoff * a :: rest.sleeps,
          deadLetters := rest.deadLetters,
          flowCalls := rest.flowCalls + 1 }
  else { statuses := [], sleeps := [], deadLetters := 0, flowCalls := 0 }
termination_by maxA - attempt
decreasing_by omega

/-- Trace of one iteration of the `startQueueConsumer` loop for a fetched,
validated item (src/queue/consumer.ts): exactly one `fetchNextIntent`, a
`processIntentWithRetry` run, and exactly one `ackIntent` in the `finally`
block, whatever the outcome. -/
structure ConsumeTrace where
  fetches : Nat
  acks : Nat
  run : RunTrace
  deriving DecidableEq, Repr

/-- One `startQueueConsumer` iteration on a validated intent: the retry
loop runs in-process on the single fetched item and the item is
acknowledged once in `finally`. -/
def consumeValidatedIntent (maxA backoff : Nat)
    (flow : Nat → Except String String) : ConsumeTrace :=
  { fetches := 1, acks := 1,
    run := processIntentWithRetry maxA backoff flow 0 }

/-- Character-wise lowercasing (model of JavaScript's toLowerCase for the
ASCII status strings compared by the poller). -/
def lowerString (s : String) : String := ⟨s.data.map Char.toLower⟩

/-- Status record read by the intents poller, keyed by intentId
(src/state/status.ts `IntentStatus` projection). -/
structure IntentStatusRec where
  intentId : String
  state : String
  depositAddress : Option String := none
  depositMemo : Option String := none
  intentData : Option ValidatedIntent := none
  deriving DecidableEq, Repr

/-- Poller outcome discriminator (shape of the values returned by
`checkAndProcessIntent`). -/
inductive PollOutcome where
  | skipped (reason : String)
  | apiError
  | succeededPoll
  | failedPoll (reason : String)
  | pendingPoll
  | unknownPoll (status : String)
  deriving DecidableEq, Repr

/-- Observable trace of one poller check: status-store writes and
re-enqueued intents, in order, plus the outcome. -/
structure PollTrace where
  writes : List (String × StatusUpdate)
  enqueued : List ValidatedIntent
  outcome : PollOutcome
  deriving DecidableEq, Repr

/-- The re-enqueued copy built by the poller on external success: the
original intent with `metadata.intentsCompleted` set (spreading an
undefined metadata yields a record with only that flag). -/
def setIntentsCompleted (it : ValidatedIntent) : ValidatedIntent :=
  { it with metadata := some { (it.metadata.getD {}) with intentsCompleted := true } }

/-- Modelled from the spec: the Cross-Chain Completion Poller's per-intent
check (the poller module itself, src/queue/intentsPoller.ts, is not in the
source tree; src/queue/intentsPoller.test.ts simulates exactly this
`checkAndProcessIntent` logic).  For an intent status record: skip without
a deposit address; on settlement-API error report it; otherwise map the
lowercased external status: success/completed with retrievable intent data
→ write processing and re-enqueue the intent with the completion flag set;
success/completed without intent data → write failed with the
missing-intent-data error; refunded/failed → write failed; pending /
processing → no writes; anything else → unknown, no writes. -/
def checkAndProcessIntent (st : IntentStatusRec)
    (apiResult : Except Unit String) : PollTrace :=
  match st.depositAddress with
  | none => { writes := [], enqueued := [], outcome := .skipped "missing depositAddress" }
  | some _ =>
    match apiResult with
    | .error _ => { writes := [], enqueued := [], outcome := .apiError }
    | .ok status =>
      let s := lowerString status
      if s = "success" ∨ s = "completed" then
        match st.intentData with
        | none =>
          { writes := [(st.intentId, .failed "Missing intent data after intents success")],
            enqueued := [], outcome := .failedPoll "missing intentData" }
        | some it =>
          { writes := [(st.intentId,
              .processing "Intents swap completed, executing Jupiter swap")],
            enqueued := [setIntentsCompleted it], outcome := .succeededPoll }
      else if s = "refunded" ∨ s = "failed" then
        { writes := [(st.intentId, .failed ("Intents swap " ++ status))],
          enqueued := [], outcome := .failedPoll status }
      else if s = "pending" ∨ s = "processing" then
        { writes := [], enqueued := [], outcome := .pendingPoll }
      else { writes := [], enqueued := [], outcome := .unknownPoll status }

/-- From src/utils/solana.ts. -/
def SOLANA_DEFAULT_PATH : String := "solana-1"

/-- Embedding of the derivation-path construction inside
`deriveAgentPublicKey` (src/utils/solana.ts and the variant in
src/utils/solanaSignature.ts): the base path alone, or
`path + "," + userDestination` when the user identifier is truthy.  The
subsequent call to the external key-derivation service is out of scope. -/
def deriveAgentPath (path : String) (userDestination : Option String) : String :=
  if optTruthy userDestination then path ++ "," ++ userDestination.getD ""
  else path

/-- From src/utils/nearSignature.ts, `isNearSignature`: shape-based
dispatch, a NEAR NEP-413 / legacy signature carries nonce and recipient. -/
def isNearSignature (sig : UserSignature) : Bool :=
  sig.nonce.isSome && sig.recipient.isSome

/-- Key normalization inside `verifyPublicKeyMatch`
(src/utils/nearSignature.ts). -/
def normalizeKey (key : String) : String :=
  if key.startsWith "ed25519:" then key else "ed25519:" ++ key

/-- From src/utils/nearSignature.ts, `verifyPublicKeyMatch`. -/
def verifyPublicKeyMatch (sig : UserSignature) (expectedPublicKey : String) : Bool :=
  normalizeKey sig.publicKey = normalizeKey expectedPublicKey

/-- Error message of the message-comparison step of
`validateIntentSignature`. -/
def msgMismatchError : String :=
  "Message mismatch. The signed message does not match the intent."

/-- Result shape of `validateIntentSignature`. -/
structure SignatureValidationResult where
  isValid : Bool
  error : Option String := none
  deriving DecidableEq, Repr

/-- Embedding of `validateIntentSignature` (src/utils/nearSignature.ts),
with the cryptographic NEP-413 check abstracted as `verifyNear`.  The
message comparison runs only when `expectedMessage` is truthy (JavaScript:
`if (expectedMessage && userSignature.message !== expectedMessage)`). -/
def validateIntentSignature (verifyNear : UserSignature → Bool)
    (sig : UserSignature) (expectedPublicKey : String)
    (expectedMessage : Option String) : SignatureValidationResult :=
  if !isNearSignature sig then
    { isValid := false,
      error := some "Not a NEAR NEP-413 signature. Missing nonce or recipient." }
  else if !verifyPublicKeyMatch sig expectedPublicKey then
    { isValid := false,
      error := some ("Public key mismatch. Expected " ++ expectedPublicKey ++
        ", got " ++ sig.publicKey) }
  else if optTruthy expectedMessage ∧ sig.message ≠ expectedMessage.getD "" then
    { isValid := false, error := some msgMismatchError }
  else if !verifyNear sig then
    { isValid := false,
      error := some "Invalid signature. Cryptographic verification failed." }
  else { isValid := true, error := none }

/-- NEP-413 tag prefix, 2^31 + 413 (src/utils/nearSignature.ts). -/
def NEP413_TAG : Nat := 2147484061

/-- Little-endian 4-byte encoding of a u32, as produced by the manual
byte-shifting in `serializeNEP413Payload`. -/
def u32le (n : Nat) : List Nat :=
  [n % 256, n / 256 % 256, n / 65536 % 256, n / 16777216 % 256]

/-- Byte-level core of `serializeNEP413Payload`
(src/utils/nearSignature.ts): u32 tag, length-prefixed message bytes, raw
nonce bytes, length-prefixed recipient bytes, Option-encoded callbackUrl
(1-byte discriminant, then a length-prefixed string when present). -/
def serializeNEP413Core (tag : Nat)
    (message nonce recipient : List Nat) (callbackUrl : Option (List Nat)) :
    List Nat :=
  u32le tag ++ u32le message.length ++ message ++ nonce ++
    u32le recipient.length ++ recipient ++
    (match callbackUrl with
     | some cb => 1 :: (u32le cb.length ++ cb)
     | none => [0])

/-- Embedding of `serializeNEP413Payload` including its thrown error on a
nonce that is not exactly 32 bytes. -/
def serializeNEP413Payload (tag : Nat)
    (message nonce recipient : List Nat) (callbackUrl : Option (List Nat)) :
    Except String (List Nat) :=
  if nonce.length ≠ 32 then
    .error ("Nonce must be exactly 32 bytes, got " ++ toString nonce.length)
  else .ok (serializeNEP413Core tag message nonce recipient callbackUrl)

/-- Idealization of the external cryptographic primitives used by
`verifyNearSignature`: a collision-free hash (SHA-256) and a deterministic
Ed25519 scheme in which a signature verifies under a public key exactly
when it is the signature of that message under the corresponding secret
key, and distinct messages have distinct signatures. -/
structure Ed25519Scheme where
  hash : List Nat → List Nat
  keyOf : List Nat → List Nat
  sign : List Nat → List Nat → List Nat
  verify : List Nat → List Nat → List Nat → Bool
  hash_injective : Function.Injective hash
  verify_eq : ∀ sk m s, verify m s (keyOf sk) = true ↔ s = sign sk m
  sign_injective : ∀ sk, Function.Injective (sign sk)

/-- Byte-level embedding of `verifyNearSignature`
(src/utils/nearSignature.ts) over an Ed25519/SHA-256 scheme `E`: reject a
nonce that is not 32 bytes, Borsh-serialize the NEP-413 payload with the
tag (no callbackUrl in this flow), hash it, and verify the signature
against the hash.  The base64/base58 decodings of the nonce, signature and
public key strings are modelled separately (see the signature decoders
below). -/
def verifyNearSignatureBytes (E : Ed25519Scheme)
    (message nonce recipient sigBytes pkBytes : List Nat) : Bool :=
  if nonce.length ≠ 32 then false
  else
    match serializeNEP413Payload NEP413_TAG message nonce recipient none with
    | .error _ => false
    | .ok serialized => E.verify (E.hash serialized) sigBytes pkBytes

/-- A concrete `Ed25519Scheme` instance (used to witness that the
idealized hypotheses are satisfiable): the secret key is its own public
key, a signature is the key followed by a separator and the message. -/
def toyScheme : Ed25519Scheme where
  hash := id
  keyOf := id
  sign := fun sk m => sk ++ 256 :: m
  verify := fun m s pk => s = pk ++ 256 :: m
  hash_injective := fun _ _ h => h
  verify_eq := by
    intro sk m s
    simp
  sign_injective := by
    intro sk m m' h
    simpa using List.append_cancel_left h

/-- Codepoint list of a string literal (used to spell out the fixed JSON
skeleton emitted by `JSON.stringify`). -/
def codes (s : String) : List Nat := s.data.map Char.toNat

/-- Lowercase hex digit character code of a value below 16 (as emitted by
JSON unicode escapes). -/
def hexDigitCode (n : Nat) : Nat := if n < 10 then 48 + n else 87 + n

/-- Value of a hex digit character code. -/
def hexCodeVal (c : Nat) : Nat := if c < 58 then c - 48 else if c < 97 then c - 55 else c - 87

/-- JSON.stringify escaping of one string character (codepoint level):
quote and backslash get a backslash escape, the named control characters
get their short escapes, other control characters get a \u00XX escape,
everything else is emitted as is. -/
def jsonEscapeChar (c : Nat) : List Nat :=
  if c = 34 then [92, 34]
  else if c = 92 then [92, 92]
  else if c = 8 then [92, 98]
  else if c = 9 then [92, 116]
  else if c = 10 then [92, 110]
  else if c = 12 then [92, 102]
  else if c = 13 then [92, 114]
  else if c < 32 then [92, 117, 48, 48, hexDigitCode (c / 16), hexDigitCode (c % 16)]
  else [c]

/-- JSON.stringify escaping of a whole string body. -/
def jsonEscape : List Nat → List Nat
  | [] => []
  | c :: cs => jsonEscapeChar c ++ jsonEscape cs

/-- Reader for a JSON string body: consumes an escaped body up to its
closing (unescaped) quote and returns the decoded body together with the
rest of the input.  Inverse of `jsonEscape` (used to show the serialized
payload determines the field values). -/
def readJSONString : List Nat → Option (List Nat × List Nat)
  | 34 :: rest => some ([], rest)
  | 92 :: 34 :: rest => (readJSONString rest).map (fun p => (34 :: p.1, p.2))
  | 92 :: 92 :: rest => (readJSONString rest).map (fun p => (92 :: p.1, p.2))
  | 92 :: 98 :: rest => (readJSONString rest).map (fun p => (8 :: p.1, p.2))
  | 92 :: 116 :: rest => (readJSONString rest).map (fun p => (9 :: p.1, p.2))
  | 92 :: 110 :: rest => (readJSONString rest).map (fun p => (10 :: p.1, p.2))
  | 92 :: 102 :: rest => (readJSONString rest).map (fun p => (12 :: p.1, p.2))
  | 92 :: 114 :: rest => (readJSONString rest).map (fun p => (13 :: p.1, p.2))
  | 92 :: 117 :: a :: b :: c :: d :: rest =>
    (readJSONString rest).map
      (fun p => ((4096 * hexCodeVal a + 256 * hexCodeVal b +
        16 * hexCodeVal c + hexCodeVal d) :: p.1, p.2))
  | c :: rest => (readJSONString rest).map (fun p => (c :: p.1, p.2))
  | [] => none

/-- Codepoint-level model of the JSON text built by
`createIntentSigningMessage` (src/utils/nearSignature.ts) and
`createSolanaIntentSigningMessage` (src/utils/solanaSignature.ts):
`JSON.stringify` of the fixed-order object
intentId, sourceAmount, destinationAmount, finalAsset, userDestination,
action, where a key whose value is `undefined` is omitted. -/
def serializeIntentSigningPayload (intentId sourceAmount : List Nat)
    (destinationAmount : Option (List Nat)) (finalAsset userDestination : List Nat)
    (action : Option (List Nat)) : List Nat :=
  codes "\x7b\"intentId\":\"" ++ jsonEscape intentId ++
  codes "\",\"sourceAmount\":\"" ++ jsonEscape sourceAmount ++
  (match destinationAmount with
   | some d => codes "\",\"destinationAmount\":\"" ++ jsonEscape d
   | none => []) ++
  codes "\",\"finalAsset\":\"" ++ jsonEscape finalAsset ++
  codes "\",\"userDestination\":\"" ++ jsonEscape userDestination ++
  (match action with
   | some a => codes "\",\"action\":\"" ++ jsonEscape a
   | none => []) ++
  codes "\"\x7d"

/-- Embedding of `createIntentSigningMessage` /
`createSolanaIntentSigningMessage`: SHA-256 (abstracted as `H`) of the
serialized canonical intent payload. -/
def createIntentSigningMessage (H : List Nat → List Nat)
    (intentId sourceAmount : List Nat) (destinationAmount : Option (List Nat))
    (finalAsset userDestination : List Nat) (action : Option (List Nat)) :
    List Nat :=
  H (serializeIntentSigningPayload intentId sourceAmount destinationAmount
      finalAsset userDestination action)

/-- Fuel-driven little-endian base-`b` digit expansion (agrees with
`Nat.digits` once the fuel dominates the number; fuelled so that concrete
evaluations reduce in the kernel). -/
def digitsFuel (b : Nat) : Nat → Nat → List Nat
  | _, 0 => []
  | 0, _ + 1 => []
  | fuel + 1, n + 1 => (n + 1) % b :: digitsFuel b fuel ((n + 1) / b)

/-- Big-endian byte list of a natural number (most significant first, no
leading zero byte, empty for 0). -/
def natToBeBytes (n : Nat) : List Nat := (digitsFuel 256 n n).reverse

/-- Value of a big-endian byte list. -/
def beBytesToNat (l : List Nat) : Nat := Nat.ofDigits 256 l.reverse

/-- The bitcoin/solana base58 alphabet (no 0, O, I, l). -/
def BASE58_ALPHABET : List Char :=
  "123456789ABCDEFGHJKLMNPQRSTUVWXYZabcdefghijkmnopqrstuvwxyz".data

/-- Index of a character in an alphabet list, none when absent. -/
def charIdx (c : Char) : List Char → Option Nat
  | [] => none
  | x :: xs => if x = c then some 0 else (charIdx c xs).map (· + 1)

/-- Character of a base58 digit value. -/
def b58CharOfDigit (d : Nat) : Char := BASE58_ALPHABET.getD d ' '

/-- Digit value of a base58 character, none for characters outside the
alphabet. -/
def b58DigitOfChar (c : Char) : Option Nat := charIdx c BASE58_ALPHABET

/-- Leading-zero count of a digit/byte list. -/
def countLeadingZeros : List Nat → Nat
  | 0 :: r => countLeadingZeros r + 1
  | _ => 0

/-- Map a character list to digit values, failing if any character is
outside the alphabet described by `f`. -/
def decodeChars (f : Char → Option Nat) : List Char → Option (List Nat)
  | [] => some []
  | c :: cs =>
    match f c, decodeChars f cs with
    | some d, some ds => some (d :: ds)
    | _, _ => none

/-- Model of `bs58.encode`: leading zero bytes become leading '1'
characters, the remaining value is written in base58 (big-endian). -/
def base58Encode (bytes : List Nat) : String :=
  ⟨List.replicate (countLeadingZeros bytes) '1' ++
    ((digitsFuel 58 (beBytesToNat bytes) (beBytesToNat bytes)).reverse.map
      b58CharOfDigit)⟩

/-- Model of `bs58.decode`: fails (the library throws) exactly when some
character is outside the alphabet; otherwise leading zero digits become
leading zero bytes and the value of the digit string becomes its minimal
big-endian byte encoding. -/
def base58Decode (s : String) : Option (List Nat) :=
  match decodeChars b58DigitOfChar s.data with
  | none => none
  | some digitsBE =>
    some (List.replicate (countLeadingZeros digitsBE) 0 ++
      natToBeBytes (Nat.ofDigits 58 digitsBE.reverse))

/-- The standard base64 alphabet. -/
def BASE64_ALPHABET : List Char :=
  "ABCDEFGHIJKLMNOPQRSTUVWXYZabcdefghijklmnopqrstuvwxyz0123456789+/".data

/-- Character of a 6-bit value. -/
def b64CharOfVal (n : Nat) : Char := BASE64_ALPHABET.getD n ' '

/-- 6-bit value of a base64 character, none for characters outside the
alphabet (in particular for padding). -/
def b64ValOfChar (c : Char) : Option Nat := charIdx c BASE64_ALPHABET

/-- Standard padded base64 encoding of a byte list (character level). -/
def base64EncodeCore : List Nat → List Char
  | [] => []
  | [a] => [b64CharOfVal (a / 4), b64CharOfVal (a % 4 * 16), '=', '=']
  | [a, b] => [b64CharOfVal (a / 4), b64CharOfVal (a % 4 * 16 + b / 16),
      b64CharOfVal (b % 16 * 4), '=']
  | a :: b :: d :: rest =>
    b64CharOfVal (a / 4) :: b64CharOfVal (a % 4 * 16 + b / 16) ::
      b64CharOfVal (b % 16 * 4 + d / 64) :: b64CharOfVal (d % 64) ::
      base64EncodeCore rest

/-- Canonical base64 decode: 4-character groups, padding allowed only in
the final group.  It agrees with `Buffer.from(s, "base64")` on every string
without interior padding characters; in this development the decoders'
base64 branches are only evaluated on such strings (canonical encodings and
hex strings), never on strings with interior padding, where Node is more
lenient. -/
def base64DecodeCore : List Char → Option (List Nat)
  | [] => some []
  | c1 :: c2 :: c3 :: c4 :: rest =>
    if c3 = '=' ∧ c4 = '=' ∧ rest = [] then
      match b64ValOfChar c1, b64ValOfChar c2 with
      | some v1, some v2 => some [v1 * 4 + v2 / 16]
      | _, _ => none
    else if c4 = '=' ∧ rest = [] then
      match b64ValOfChar c1, b64ValOfChar c2, b64ValOfChar c3 with
      | some v1, some v2, some v3 =>
        some [v1 * 4 + v2 / 16, v2 % 16 * 16 + v3 / 4]
      | _, _, _ => none
    else
      match b64ValOfChar c1, b64ValOfChar c2, b64ValOfChar c3, b64ValOfChar c4,
          base64DecodeCore rest with
      | some v1, some v2, some v3, some v4, some bytes =>
        some ((v1 * 4 + v2 / 16) :: (v2 % 16 * 16 + v3 / 4) ::
          (v3 % 4 * 64 + v4) :: bytes)
      | _, _, _, _, _ => none
  | _ => none

/-- Standard padded base64 encoding of a byte list. -/
def base64Encode (bytes : List Nat) : String := ⟨base64EncodeCore bytes⟩

/-- Membership in the character class of the `^[A-Za-z0-9+/=]+$` regex. -/
def isBase64RegexChar (c : Char) : Bool :=
  c.isAlpha || c.isDigit || c = '+' || c = '/' || c = '='

/-- Hex-digit character test of the `[0-9a-fA-F]` class. -/
def isHexChar (c : Char) : Bool :=
  c.isDigit || ('a' ≤ c ∧ c ≤ 'f') || ('A' ≤ c ∧ c ≤ 'F')

/-- Value of a hex character. -/
def hexCharVal (c : Char) : Nat := hexCodeVal c.toNat

/-- Byte list of a hex character list (pairs of digits). -/
def hexDecodePairs : List Char → List Nat
  | a :: b :: r => (16 * hexCharVal a + hexCharVal b) :: hexDecodePairs r
  | _ => []

/-- Lowercase hex digit character of a value below 16. -/
def hexDigitChar (n : Nat) : Char := Char.ofNat (hexDigitCode n)

/-- Lowercase hex encoding of a byte list. -/
def hexEncode (bytes : List Nat) : String :=
  ⟨bytes.flatMap (fun b => [hexDigitChar (b / 16), hexDigitChar (b % 16)])⟩

/-- The base64 branch shared by both signature decoders: the
`^[A-Za-z0-9+/=]+$` pattern together with a length that is a multiple of
4, then a decode that must yield exactly 64 bytes. -/
def signatureFromBase64 (signature : String) : Option (List Nat) :=
  if !signature.data.isEmpty ∧ signature.data.all isBase64RegexChar ∧
      signature.data.length % 4 = 0 then
    match base64DecodeCore signature.data with
    | some decoded => if decoded.length = 64 then some decoded else none
    | none => none
  else none

/-- Strips a leading "0x" from a character list. -/
def stripHex0x : List Char → List Char
  | '0' :: 'x' :: rest => rest
  | l => l

/-- The hex branch shared by both signature decoders: the
`^(0x)?[0-9a-fA-F]+$` pattern, strip an optional 0x prefix, and require
exactly 128 hex digits. -/
def signatureFromHex (signature : String) : Option (List Nat) :=
  let chars := signature.data
  let body := stripHex0x chars
  if !chars.isEmpty ∧ body.all isHexChar ∧ !body.isEmpty then
    if body.length = 128 then some (hexDecodePairs body) else none
  else none

/-- The base58 branch of the Solana decoder: `bs58.decode` under a
try/catch, then a 64-byte length check. -/
def signatureFromBase58 (signature : String) : Option (List Nat) :=
  match base58Decode signature with
  | some decoded => if decoded.length = 64 then some decoded else none
  | none => none

/-- Embedding of `decodeSignature` from src/utils/nearSignature.ts:
base64 first, then hex, otherwise throw. -/
def decodeSignatureNear (signature : String) : Except String (List Nat) :=
  match signatureFromBase64 signature with
  | some d => .ok d
  | none =>
    match signatureFromHex signature with
    | some d => .ok d
    | none => .error "Invalid signature format. Expected base64 or hex-encoded 64-byte signature."

/-- Embedding of `decodeSignature` from src/utils/solanaSignature.ts:
base58 first, then base64, then hex, otherwise throw. -/
def decodeSignatureSolana (signature : String) : Except String (List Nat) :=
  match signatureFromBase58 signature with
  | some d => .ok d
  | none =>
    match signatureFromBase64 signature with
    | some d => .ok d
    | none =>
      match signatureFromHex signature with
      | some d => .ok d
      | none => .error "Invalid signature format. Expected base58, base64, or hex-encoded 64-byte signature."

/-! ## Theorems -/

theorem ne_of_data_head {s t : String} {c d : Char}
    (hs : s.data.head? = some c) (ht : t.data.head? = some d)
    (hcd : c ≠ d) : s ≠ t := by
  intro h
  subst h
  rw [hs] at ht
  cases ht
  exact hcd rfl

/-- C1: with the queue enabled, a POST /api/intents payload carrying
neither a deposit proof (truthy originTxHash together with truthy
intentsDepositAddress) nor a userSignature is answered 403 with no enqueue
and no status write; and a payload whose userSignature fails cryptographic
verification is likewise answered 403 with no enqueue and no status
write. -/
theorem c1_enqueue_requires_authorization_proof :
    (∀ (verifySig : UserSignature → Bool) (payload : IntentMessage),
      payload.userSignature = none →
      (optTruthy payload.originTxHash && optTruthy payload.intentsDepositAddress) = false →
      (postIntents true verifySig payload).1.status = 403 ∧
      (postIntents true verifySig payload).2 = {}) ∧
    (∀ (verifySig : UserSignature → Bool) (payload : IntentMessage)
      (s : UserSignature),
      payload.userSignature = some s → verifySig s = false →
      (postIntents true verifySig payload).1.status = 403 ∧
      (postIntents true verifySig payload).2 = {}) := by
  constructor
  · intro verifySig payload hsig hdep
    simp [postIntents, hsig, hdep]
  · intro verifySig payload s hsig hver
    simp [postIntents, hsig, hver]

theorem c1_enqueue_requires_authorization_proof_witness :
    ((postIntents true (fun _ => true)
        { intentId := "t1", sourceChain := "near", sourceAsset := "wrap.near",
          sourceAmount := "1", destinationChain := "solana", finalAsset := "f",
          userDestination := "u", agentDestination := "g" }).1.status = 403 ∧
      (postIntents true (fun _ => true)
        { intentId := "t1", sourceChain := "near", sourceAsset := "wrap.near",
          sourceAmount := "1", destinationChain := "solana", finalAsset := "f",
          userDestination := "u", agentDestination := "g" }).2 = {}) ∧
    ((postIntents true (fun _ => false)
        { intentId := "t2", sourceChain := "near", sourceAsset := "wrap.near",
          sourceAmount := "1", destinationChain := "solana", finalAsset := "f",
          userDestination := "u", agentDestination := "g",
          userSignature := some { message := "m", signature := "s", publicKey := "k" } }).1.status = 403 ∧
      (postIntents true (fun _ => false)
        { intentId := "t2", sourceChain := "near", sourceAsset := "wrap.near",
          sourceAmount := "1", destinationChain := "solana", finalAsset := "f",
          userDestination := "u", agentDestination := "g",
          userSignature := some { message := "m", signature := "s", publicKey := "k" } }).2 = {}) :=
  ⟨c1_enqueue_requires_authorization_proof.1 (fun _ => true) _ rfl rfl,
   c1_enqueue_requires_authorization_proof.2 (fun _ => false) _
     { message := "m", signature := "s", publicKey := "k" } rfl rfl⟩

/-- C3: contrary to the claim (and to the repository's own
validation.test.ts, which expects a thrown error mentioning "positive"
for sourceAmount "0" and "maximum" for 2^129), `validateIntent` accepts a
sourceAmount of "0" and a sourceAmount of 2^129: its only check on the
field is the `^\d+$` pattern. -/
theorem c3_validator_accepts_zero_and_huge_amounts :
    (∃ v, validateIntent
      { intentId := "test-intent", sourceChain := "solana",
        destinationChain := "solana",
        sourceAsset := "So11111111111111111111111111111111111111111",
        finalAsset := "So11111111111111111111111111111111111111111",
        sourceAmount := "0", destinationAmount := some "1000000",
        userDestination := "4cJgUe8TKEkJtqWSXoe4fAhN74LW2TbK4DGVkfdxUJZk",
        agentDestination := "8CKsW6cVfaQnBxpqtKfxDxZ8sM3E7DbpDZEPXx1cBa9u" } = .ok v ∧
      v.sourceAmount = "0") ∧
    (∃ v, validateIntent
      { intentId := "test-intent", sourceChain := "solana",
        destinationChain := "solana",
        sourceAsset := "So11111111111111111111111111111111111111111",
        finalAsset := "So11111111111111111111111111111111111111111",
        sourceAmount := "680564733841876926926749214863536422912",
        destinationAmount := some "1000000",
        userDestination := "4cJgUe8TKEkJtqWSXoe4fAhN74LW2TbK4DGVkfdxUJZk",
        agentDestination := "8CKsW6cVfaQnBxpqtKfxDxZ8sM3E7DbpDZEPXx1cBa9u" } = .ok v ∧
      v.sourceAmount = "680564733841876926926749214863536422912") :=
  ⟨⟨_, rfl, rfl⟩, ⟨_, rfl, rfl⟩⟩

/-- C6 counterexample: the claim's clause "derive(basePath, u) yields
basePath + \",\" + u" and its pairwise-distinctness over all identifiers
fail at the empty identifier, which JavaScript truthiness treats like the
no-identifier case. -/
theorem c6_counterexample_empty_identifier :
    deriveAgentPath SOLANA_DEFAULT_PATH (some "") =
      deriveAgentPath SOLANA_DEFAULT_PATH none ∧
    (some "" : Option String) ≠ none ∧
    deriveAgentPath SOLANA_DEFAULT_PATH (some "") ≠
      SOLANA_DEFAULT_PATH ++ "," ++ "" := by
  refine ⟨rfl, by simp, ?_⟩
  decide

/-- C6 (amended to non-empty identifiers): custody-path derivation is
deterministic and collision-free for non-empty user identifiers:
derive(base, u) is base + "," + u, derive(base) is base, distinct
non-empty identifiers give distinct paths, and a non-empty identifier
never collides with the no-identifier path. -/
theorem c6_derivation_path_collision_free :
    ∀ (base u v : String), u ≠ "" → v ≠ "" → u ≠ v →
      deriveAgentPath base (some u) = base ++ "," ++ u ∧
      deriveAgentPath base none = base ∧
      deriveAgentPath base (some u) ≠ deriveAgentPath base (some v) ∧
      deriveAgentPath base (some u) ≠ deriveAgentPath base none := by
  intro base u v hu hv huv
  have hpath : ∀ w : String, w ≠ "" →
      deriveAgentPath base (some w) = base ++ "," ++ w := by
    intro w hw
    simp [deriveAgentPath, optTruthy, hw]
  refine ⟨hpath u hu, rfl, ?_, ?_⟩
  · rw [hpath u hu, hpath v hv]
    intro h
    apply huv
    have h2 := congrArg String.data h
    simp only [String.data_append, List.append_assoc] at h2
    exact String.ext (List.append_cancel_left (List.append_cancel_left h2))
  · rw [hpath u hu]
    show base ++ "," ++ u ≠ deriveAgentPath base none
    simp only [deriveAgentPath, optTruthy, Bool.false_eq_true, if_false]
    intro h
    have h2 := congrArg String.length h
    rw [String.length_append, String.length_append] at h2
    have hc : ("," : String).length = 1 := rfl
    rw [hc] at h2
    omega

theorem c6_derivation_path_collision_free_witness :
    deriveAgentPath "solana-1" (some "alice") = "solana-1" ++ "," ++ "alice" ∧
    deriveAgentPath "solana-1" none = "solana-1" ∧
    deriveAgentPath "solana-1" (some "alice") ≠ deriveAgentPath "solana-1" (some "bob") ∧
    deriveAgentPath "solana-1" (some "alice") ≠ deriveAgentPath "solana-1" none :=
  c6_derivation_path_collision_free "solana-1" "alice" "bob"
    (by decide) (by decide) (by decide)

/-- C10: when the expectedMessage argument of `validateIntentSignature` is
undefined or the empty string, the message-comparison step is skipped: the
result is the same as with no expectedMessage at all, the message-mismatch
error is never returned, and identity match plus cryptographic
verification alone yield isValid = true, whatever the signed message. -/
theorem c10_empty_expected_message_skips_comparison :
    ∀ (verifyNear : UserSignature → Bool) (sig : UserSignature)
      (pk : String) (em : Option String),
      (em = none ∨ em = some "") →
      validateIntentSignature verifyNear sig pk em =
        validateIntentSignature verifyNear sig pk none ∧
      (validateIntentSignature verifyNear sig pk em).error ≠ some msgMismatchError ∧
      (isNearSignature sig = true → verifyPublicKeyMatch sig pk = true →
        verifyNear sig = true →
        (validateIntentSignature verifyNear sig pk em).isValid = true) := by
  intro verifyNear sig pk em hem
  have hskip : validateIntentSignature verifyNear sig pk em =
      validateIntentSignature verifyNear sig pk none := by
    rcases hem with rfl | rfl
    · rfl
    · simp [validateIntentSignature, optTruthy]
  refine ⟨hskip, ?_, ?_⟩
  · rw [hskip]
    by_cases h1 : isNearSignature sig
    · by_cases h2 : verifyPublicKeyMatch sig pk
      · by_cases h3 : verifyNear sig
        · simp [validateIntentSignature, h1, h2, h3, optTruthy]
        · simp only [validateIntentSignature, h1, h2, h3, optTruthy]
          simp only [Bool.not_true, Bool.false_eq_true, if_false, Bool.not_false, if_true]
          intro h
          injection h with h'
          exact ne_of_data_head
            (s := "Invalid signature. Cryptographic verification failed.")
            (t := msgMismatchError) rfl rfl (by decide) h'
      · simp only [validateIntentSignature, h1, h2, optTruthy]
        simp only [Bool.not_true, Bool.false_eq_true, if_false, Bool.not_false, if_true]
        intro h
        injection h with h'
        exact ne_of_data_head
          (s := "Public key mismatch. Expected " ++ pk ++ ", got " ++ sig.publicKey)
          (t := msgMismatchError) rfl rfl (by decide) h'
    · simp only [validateIntentSignature, h1, optTruthy]
      simp only [Bool.not_false, if_true]
      intro h
      injection h with h'
      exact ne_of_data_head
        (s := "Not a NEAR NEP-413 signature. Missing nonce or recipient.")
        (t := msgMismatchError) rfl rfl (by decide) h'
  · intro h1 h2 h3
    rw [hskip]
    simp [validateIntentSignature, h1, h2, h3, optTruthy]

theorem c10_empty_expected_message_skips_comparison_witness :
    validateIntentSignature (fun _ => true)
        (UserSignature.mk "not-the-canonical-message" "s" "ed25519:K" (some "n") (some "r"))
        "K" (some "") =
      validateIntentSignature (fun _ => true)
        (UserSignature.mk "not-the-canonical-message" "s" "ed25519:K" (some "n") (some "r"))
        "K" none ∧
    (validateIntentSignature (fun _ => true)
        (UserSignature.mk "not-the-canonical-message" "s" "ed25519:K" (some "n") (some "r"))
        "K" (some "")).error ≠ some msgMismatchError ∧
    (isNearSignature
        (UserSignature.mk "not-the-canonical-message" "s" "ed25519:K" (some "n") (some "r")) = true →
      verifyPublicKeyMatch
        (UserSignature.mk "not-the-canonical-message" "s" "ed25519:K" (some "n") (some "r")) "K" = true →
      (fun (_ : UserSignature) => true)
        (UserSignature.mk "not-the-canonical-message" "s" "ed25519:K" (some "n") (some "r")) = true →
      (validateIntentSignature (fun _ => true)
        (UserSignature.mk "not-the-canonical-message" "s" "ed25519:K" (some "n") (some "r"))
        "K" (some "")).isValid = true) :=
  c10_empty_expected_message_skips_comparison (fun _ => true)
    (UserSignature.mk "not-the-canonical-message" "s" "ed25519:K" (some "n") (some "r"))
    "K" (some "") (Or.inr rfl)


theorem except_throw_def {α : Type} (e : String) :
    (throw e : Except String α) = .error e := rfl

theorem except_error_bind {α β : Type} (e : String) (f : α → Except String β) :
    (Except.error e >>= f) = .error e := rfl

theorem except_pure_bind {α β : Type} (a : α) (f : α → Except String β) :
    ((pure a : Except String α) >>= f) = f a := rfl

theorem except_ok_bind {α β : Type} (a : α) (f : α → Except String β) :
    ((Except.ok a : Except String α) >>= f) = f a := rfl

theorem except_pure_def {α : Type} (a : α) :
    (pure a : Except String α) = .ok a := rfl

/-- C9: `validateIntent` accepts every well-formed intent (non-empty
intentId, the served solana destinationChain, non-empty
userDestination/agentDestination/sourceAsset/finalAsset, numeric
sourceAmount, a numeric destinationAmount when present, and the required
metadata fields when a kamino action is present, per the validator
contract), filling slippageBps with the default 300 when the input omits
it and preserving a present one; destinationAmount is preserved, so an
absent one remains absent; and a present non-numeric destinationAmount is
always rejected. -/
theorem c9_validator_accepts_wellformed :
    (∀ m : IntentMessage,
      m.intentId ≠ "" → m.destinationChain = "solana" →
      m.userDestination ≠ "" → m.agentDestination ≠ "" →
      m.sourceAsset ≠ "" → m.finalAsset ≠ "" →
      isNumericString m.sourceAmount = true →
      (∀ d, m.destinationAmount = some d → isNumericString d = true) →
      (isKaminoDepositMetadata m.metadata = true →
        optTruthy (m.metadata.getD {}).marketAddress = true ∧
        optTruthy (m.metadata.getD {}).mintAddress = true) →
      (isKaminoWithdrawMetadata m.metadata = true →
        optTruthy (m.metadata.getD {}).marketAddress = true ∧
        optTruthy (m.metadata.getD {}).mintAddress = true) →
      ∃ v, validateIntent m = .ok v ∧
        (m.slippageBps = none → v.slippageBps = DEFAULT_SLIPPAGE_BPS) ∧
        (∀ n, m.slippageBps = some n → v.slippageBps = n) ∧
        v.destinationAmount = m.destinationAmount ∧
        v.intentId = m.intentId ∧ v.sourceAmount = m.sourceAmount) ∧
    (∀ (m : IntentMessage) (d : String), m.destinationAmount = some d →
      isNumericString d = false → ∃ e, validateIntent m = .error e) := by
  constructor
  · intro m h1 h2 h3 h4 h5 h6 h7 h8 h9m h10m
    have hchain : ¬(m.destinationChain ≠ "solana") := by simp [h2]
    have h9k : isKaminoDepositMetadata m.metadata = true →
        validateKaminoDepositIntent m = .ok () := by
      intro hk
      obtain ⟨ha, hb⟩ := h9m hk
      simp [validateKaminoDepositIntent, ha, hb]
    have h10k : isKaminoWithdrawMetadata m.metadata = true →
        validateKaminoWithdrawIntent m = .ok () := by
      intro hk
      obtain ⟨ha, hb⟩ := h10m hk
      simp [validateKaminoWithdrawIntent, ha, hb]
    refine ⟨{ intentId := m.intentId
              sourceChain := m.sourceChain
              sourceAsset := m.sourceAsset
              sourceAmount := m.sourceAmount
              destinationChain := m.destinationChain
              intermediateAsset := some (if optTruthy m.intermediateAsset = true
                then m.intermediateAsset.getD "" else SOL_NATIVE_MINT)
              intermediateAmount := m.intermediateAmount
              destinationAmount := m.destinationAmount
              finalAsset := m.finalAsset
              slippageBps := m.slippageBps.getD DEFAULT_SLIPPAGE_BPS
              userDestination := m.userDestination
              agentDestination := m.agentDestination
              intentsDepositAddress := m.intentsDepositAddress
              depositMemo := m.depositMemo
              originTxHash := m.originTxHash
              sessionId := m.sessionId
              metadata := m.metadata
              nearPublicKey := m.nearPublicKey
              refundAddress := m.refundAddress
              userSignature := m.userSignature }, ?_, ?_, ?_, rfl, rfl, rfl⟩
    · cases hda : m.destinationAmount with
      | none =>
        by_cases hi : optTruthy m.intermediateAsset = true <;>
          by_cases hk1 : isKaminoDepositMetadata m.metadata = true <;>
            by_cases hk2 : isKaminoWithdrawMetadata m.metadata = true <;>
              simp only [validateIntent, if_neg h1, if_neg hchain, if_neg h3, if_neg h4,
                if_neg h5, if_neg h6, h7, hda, Bool.not_true, Bool.false_eq_true, if_false,
                except_pure_bind, except_pure_def, hk1, hk2, hi, if_true,
                h9k, h10k, except_ok_bind, getDefaultIntermediateAsset, h2,
                ite_true, ite_false] <;> simp
      | some d =>
        have hd := h8 d hda
        by_cases hi : optTruthy m.intermediateAsset = true <;>
          by_cases hk1 : isKaminoDepositMetadata m.metadata = true <;>
            by_cases hk2 : isKaminoWithdrawMetadata m.metadata = true <;>
              simp only [validateIntent, if_neg h1, if_neg hchain, if_neg h3, if_neg h4,
                if_neg h5, if_neg h6, h7, hda, hd, Bool.not_true, Bool.false_eq_true, if_false,
                except_pure_bind, except_pure_def, hk1, hk2, hi, if_true,
                h9k, h10k, except_ok_bind, getDefaultIntermediateAsset, h2,
                ite_true, ite_false] <;> simp
    · intro h
      simp [h]
    · intro n h
      simp [h]
  · intro m d hda hd
    by_cases c1 : m.intentId = ""
    · exact ⟨"intentId missing", by rw [validateIntent, if_pos c1]; rfl⟩
    by_cases c2 : m.destinationChain ≠ "solana"
    · exact ⟨"destinationChain must be solana",
        by rw [validateIntent, if_neg c1, if_pos c2]; rfl⟩
    by_cases c3 : m.userDestination = ""
    · exact ⟨"userDestination missing",
        by rw [validateIntent, if_neg c1, if_neg c2, if_pos c3]; rfl⟩
    by_cases c4 : m.agentDestination = ""
    · exact ⟨"agentDestination missing",
        by rw [validateIntent, if_neg c1, if_neg c2, if_neg c3, if_pos c4]; rfl⟩
    by_cases c5 : m.sourceAsset = ""
    · exact ⟨"sourceAsset missing",
        by rw [validateIntent, if_neg c1, if_neg c2, if_neg c3, if_neg c4, if_pos c5]; rfl⟩
    by_cases c6 : m.finalAsset = ""
    · exact ⟨"finalAsset missing",
        by rw [validateIntent, if_neg c1, if_neg c2, if_neg c3, if_neg c4, if_neg c5,
          if_pos c6]; rfl⟩
    by_cases c7 : (!isNumericString m.sourceAmount) = true
    · exact ⟨"sourceAmount must be a numeric string in base units",
        by rw [validateIntent, if_neg c1, if_neg c2, if_neg c3, if_neg c4, if_neg c5,
          if_neg c6, if_pos c7]; rfl⟩
    have hcond : (!isNumericString d) = true := by rw [hd]; rfl
    refine ⟨"destinationAmount must be a numeric string in base units if provided", ?_⟩
    rw [validateIntent, if_neg c1, if_neg c2, if_neg c3, if_neg c4, if_neg c5,
      if_neg c6, if_neg c7, hda]
    simp only [except_pure_bind, hcond, if_true]
    rfl

theorem c9_validator_accepts_wellformed_witness :
    (∃ v, validateIntent
        { intentId := "t1", sourceChain := "near", sourceAsset := "wrap.near",
          sourceAmount := "1000000", destinationChain := "solana",
          finalAsset := "f", userDestination := "u", agentDestination := "g" } = .ok v ∧
      ((none : Option Nat) = none → v.slippageBps = DEFAULT_SLIPPAGE_BPS) ∧
      (∀ n, (none : Option Nat) = some n → v.slippageBps = n) ∧
      v.destinationAmount = (none : Option String) ∧
      v.intentId = "t1" ∧ v.sourceAmount = "1000000") ∧
    (∃ e, validateIntent
        { intentId := "t1", sourceChain := "near", sourceAsset := "wrap.near",
          sourceAmount := "1000000", destinationChain := "solana",
          destinationAmount := some "abc",
          finalAsset := "f", userDestination := "u", agentDestination := "g" } = .error e) :=
  ⟨c9_validator_accepts_wellformed.1 _ (by decide) rfl (by decide) (by decide)
      (by decide) (by decide) rfl (fun d h => nomatch h)
      (fun h => nomatch h) (fun h => nomatch h),
   c9_validator_accepts_wellformed.2 _ "abc" rfl rfl⟩

/-- C5: for an intent in awaiting_intents with a recorded deposit address,
the poller maps external status success/completed with retrievable intent
data to a processing status write and a single re-enqueue of the intent
with metadata.intentsCompleted set and every other field (and every other
metadata field) unchanged; refunded/failed to a terminal failed write with
no re-enqueue; and success/completed without retrievable intent data to a
terminal failed write with the explicit missing-intent-data error and no
re-enqueue. -/
theorem c5_poller_settlement_transitions :
    ∀ (st : IntentStatusRec) (dep status : String) (it : ValidatedIntent),
      st.depositAddress = some dep →
      ((lowerString status = "success" ∨ lowerString status = "completed") →
        (st.intentData = some it →
          checkAndProcessIntent st (.ok status) =
            { writes := [(st.intentId,
                .processing "Intents swap completed, executing Jupiter swap")],
              enqueued := [setIntentsCompleted it],
              outcome := .succeededPoll } ∧
          ((setIntentsCompleted it).metadata.getD {}).intentsCompleted = true ∧
          (setIntentsCompleted it).intentId = it.intentId ∧
          (setIntentsCompleted it).sourceChain = it.sourceChain ∧
          (setIntentsCompleted it).sourceAsset = it.sourceAsset ∧
          (setIntentsCompleted it).sourceAmount = it.sourceAmount ∧
          (setIntentsCompleted it).destinationChain = it.destinationChain ∧
          (setIntentsCompleted it).intermediateAsset = it.intermediateAsset ∧
          (setIntentsCompleted it).intermediateAmount = it.intermediateAmount ∧
          (setIntentsCompleted it).destinationAmount = it.destinationAmount ∧
          (setIntentsCompleted it).finalAsset = it.finalAsset ∧
          (setIntentsCompleted it).slippageBps = it.slippageBps ∧
          (setIntentsCompleted it).userDestination = it.userDestination ∧
          (setIntentsCompleted it).agentDestination = it.agentDestination ∧
          (setIntentsCompleted it).intentsDepositAddress = it.intentsDepositAddress ∧
          (setIntentsCompleted it).depositMemo = it.depositMemo ∧
          (setIntentsCompleted it).originTxHash = it.originTxHash ∧
          (setIntentsCompleted it).sessionId = it.sessionId ∧
          (setIntentsCompleted it).nearPublicKey = it.nearPublicKey ∧
          (setIntentsCompleted it).refundAddress = it.refundAddress ∧
          (setIntentsCompleted it).userSignature = it.userSignature ∧
          ((setIntentsCompleted it).metadata.getD {}).action = (it.metadata.getD {}).action ∧
          ((setIntentsCompleted it).metadata.getD {}).marketAddress =
            (it.metadata.getD {}).marketAddress ∧
          ((setIntentsCompleted it).metadata.getD {}).mintAddress =
            (it.metadata.getD {}).mintAddress ∧
          ((setIntentsCompleted it).metadata.getD {}).targetDefuseAssetId =
            (it.metadata.getD {}).targetDefuseAssetId ∧
          ((setIntentsCompleted it).metadata.getD {}).useIntents =
            (it.metadata.getD {}).useIntents ∧
          ((setIntentsCompleted it).metadata.getD {}).extra = (it.metadata.getD {}).extra) ∧
        (st.intentData = none →
          checkAndProcessIntent st (.ok status) =
            { writes := [(st.intentId, .failed "Missing intent data after intents success")],
              enqueued := [], outcome := .failedPoll "missing intentData" })) ∧
      ((lowerString status = "refunded" ∨ lowerString status = "failed") →
        checkAndProcessIntent st (.ok status) =
          { writes := [(st.intentId, .failed ("Intents swap " ++ status))],
            enqueued := [], outcome := .failedPoll status }) := by
  intro st dep status it hdep
  constructor
  · intro hsl
    have hcond : (lowerString status = "success" ∨ lowerString status = "completed") := hsl
    constructor
    · intro hdata
      rw [checkAndProcessIntent, hdep]
      constructor
      · simp only [hdata, if_pos hcond]
      · refine ⟨?_, ?_⟩ <;> simp [setIntentsCompleted]
    · intro hdata
      rw [checkAndProcessIntent, hdep]
      simp only [hdata, if_pos hcond]
  · intro hsl
    have hne : ¬(lowerString status = "success" ∨ lowerString status = "completed") := by
      rcases hsl with h | h <;> rw [h] <;> decide
    have hcond : (lowerString status = "refunded" ∨ lowerString status = "failed") := hsl
    rw [checkAndProcessIntent, hdep]
    simp only [if_neg hne, if_pos hcond]

theorem c5_poller_settlement_transitions_witness :
    (checkAndProcessIntent
        { intentId := "test-1", state := "awaiting_intents",
          depositAddress := some "deposit-addr-123",
          intentData := some
            { intentId := "test-1", sourceChain := "near", sourceAsset := "wrap.near",
              sourceAmount := "1000000000000000000000000", destinationChain := "solana",
              intermediateAsset := some "So11111111111111111111111111111111111111112",
              finalAsset := "EPjFWdd5AufqSSqeM2qN1xzybapC8G4wEGGkZwyTDt1v",
              slippageBps := 300,
              userDestination := "4cJgUe8TKEkJtqWSXoe4fAhN74LW2TbK4DGVkfdxUJZk",
              agentDestination := "8CKsW6cVfaQnBxpqtKfxDxZ8sM3E7DbpDZEPXx1cBa9u" } }
        (.ok "success") =
      { writes := [("test-1", .processing "Intents swap completed, executing Jupiter swap")],
        enqueued := [setIntentsCompleted
          { intentId := "test-1", sourceChain := "near", sourceAsset := "wrap.near",
            sourceAmount := "1000000000000000000000000", destinationChain := "solana",
            intermediateAsset := some "So11111111111111111111111111111111111111112",
            finalAsset := "EPjFWdd5AufqSSqeM2qN1xzybapC8G4wEGGkZwyTDt1v",
            slippageBps := 300,
            userDestination := "4cJgUe8TKEkJtqWSXoe4fAhN74LW2TbK4DGVkfdxUJZk",
            agentDestination := "8CKsW6cVfaQnBxpqtKfxDxZ8sM3E7DbpDZEPXx1cBa9u" }],
        outcome := .succeededPoll }) ∧
    (checkAndProcessIntent
        { intentId := "test-1", state := "awaiting_intents",
          depositAddress := some "deposit-addr-123" }
        (.ok "refunded") =
      { writes := [("test-1", .failed ("Intents swap " ++ "refunded"))],
        enqueued := [], outcome := .failedPoll "refunded" }) :=
  ⟨(((c5_poller_settlement_transitions _ "deposit-addr-123" "success"
      { intentId := "test-1", sourceChain := "near", sourceAsset := "wrap.near",
        sourceAmount := "1000000000000000000000000", destinationChain := "solana",
        intermediateAsset := some "So11111111111111111111111111111111111111112",
        finalAsset := "EPjFWdd5AufqSSqeM2qN1xzybapC8G4wEGGkZwyTDt1v",
        slippageBps := 300,
        userDestination := "4cJgUe8TKEkJtqWSXoe4fAhN74LW2TbK4DGVkfdxUJZk",
        agentDestination := "8CKsW6cVfaQnBxpqtKfxDxZ8sM3E7DbpDZEPXx1cBa9u" }
      rfl).1 (Or.inl (by decide))).1 rfl).1,
   (c5_poller_settlement_transitions _ "deposit-addr-123" "refunded"
      { intentId := "x", sourceChain := "near", sourceAsset := "a",
        sourceAmount := "1", destinationChain := "solana", finalAsset := "f",
        slippageBps := 300, userDestination := "u", agentDestination := "g" }
      rfl).2 (Or.inl (by decide))⟩

theorem retry_success_trace (maxA backoff : Nat) (flow : Nat → Except String String)
    (N : Nat) (tx : String) :
    ∀ (k a : Nat), N - a = k + 1 → N ≤ maxA →
      (∀ i, a < i → i < N → ∃ e, flow i = .error e) → flow N = .ok tx →
      ∃ pre, (processIntentWithRetry maxA backoff flow a).statuses = pre ++ [.succeeded tx] ∧
        (processIntentWithRetry maxA backoff flow a).flowCalls = N - a ∧
        (processIntentWithRetry maxA backoff flow a).deadLetters = 0 ∧
        (processIntentWithRetry maxA backoff flow a).sleeps =
          (List.range (N - a - 1)).map (fun i => backoff * (a + 1 + i)) := by
  intro k
  induction k with
  | zero =>
    intro a hk hmax hfail hok
    have haN : N = a + 1 := by omega
    have ha : a < maxA := by omega
    rw [processIntentWithRetry, dif_pos ha]
    simp only [show a + 1 = N from haN.symm, hok]
    refine ⟨[.processing (attemptDetail N maxA)], ?_, ?_, ?_, ?_⟩
    · simp
    · omega
    · simp
    · have h0 : N - a - 1 = 0 := by omega
      simp [h0]
  | succ k ih =>
    intro a hk hmax hfail hok
    have ha : a < maxA := by omega
    have haN : a + 1 < N := by omega
    obtain ⟨e, he⟩ := hfail (a + 1) (by omega) haN
    rw [processIntentWithRetry, dif_pos ha]
    simp only [he, if_neg (by omega : ¬ maxA ≤ a + 1)]
    obtain ⟨pre, hst, hfc, hdl, hsl⟩ :=
      ih (a + 1) (by omega) hmax (fun i hi hiN => hfail i (by omega) hiN) hok
    refine ⟨.processing (attemptDetail (a + 1) maxA) ::
      .processing (retryingDetail (a + 1 + 1) maxA) :: pre, ?_, ?_, ?_, ?_⟩
    · simp [hst]
    · simp [hfc]; omega
    · simp [hdl]
    · simp only [hsl]
      have h1 : N - a - 1 = (N - (a + 1) - 1) + 1 := by omega
      rw [h1, List.range_succ_eq_map, List.map_cons, List.map_map]
      congr 1
      apply List.map_congr_left
      intro i _
      simp only [Function.comp_apply]
      congr 1
      omega

theorem retry_failure_trace (maxA backoff : Nat) (flow : Nat → Except String String) :
    ∀ (k a : Nat), maxA - a = k + 1 →
      (∀ i, a < i → i ≤ maxA → ∃ e, flow i = .error e) →
      ∃ pre e, (processIntentWithRetry maxA backoff flow a).statuses = pre ++ [.failed e] ∧
        (processIntentWithRetry maxA backoff flow a).flowCalls = maxA - a ∧
        (processIntentWithRetry maxA backoff flow a).deadLetters = 1 ∧
        (processIntentWithRetry maxA backoff flow a).sleeps =
          (List.range (maxA - a - 1)).map (fun i => backoff * (a + 1 + i)) := by
  intro k
  induction k with
  | zero =>
    intro a hk hfail
    have ha : a < maxA := by omega
    obtain ⟨e, he⟩ := hfail (a + 1) (by omega) (by omega)
    rw [processIntentWithRetry, dif_pos ha]
    simp only [he, if_pos (by omega : maxA ≤ a + 1)]
    refine ⟨[.processing (attemptDetail (a + 1) maxA)], e, ?_, ?_, ?_, ?_⟩
    · simp
    · omega
    · simp
    · have h0 : maxA - a - 1 = 0 := by omega
      simp [h0]
  | succ k ih =>
    intro a hk hfail
    have ha : a < maxA := by omega
    obtain ⟨e, he⟩ := hfail (a + 1) (by omega) (by omega)
    rw [processIntentWithRetry, dif_pos ha]
    simp only [he, if_neg (by omega : ¬ maxA ≤ a + 1)]
    obtain ⟨pre, e', hst, hfc, hdl, hsl⟩ :=
      ih (a + 1) (by omega) (fun i hi hiM => hfail i (by omega) hiM)
    refine ⟨.processing (attemptDetail (a + 1) maxA) ::
      .processing (retryingDetail (a + 1 + 1) maxA) :: pre, e', ?_, ?_, ?_, ?_⟩
    · simp [hst]
    · simp [hfc]; omega
    · simp [hdl]
    · simp only [hsl]
      have h1 : maxA - a - 1 = (maxA - (a + 1) - 1) + 1 := by omega
      rw [h1, List.range_succ_eq_map, List.map_cons, List.map_map]
      congr 1
      apply List.map_congr_left
      intro i _
      simp only [Function.comp_apply]
      congr 1
      omega

/-- C4: for a validated intent whose flow fails exactly N-1 times then
succeeds, with configured maximum attempts at least N, one consumer
iteration ends with terminal status succeeded after exactly N in-process
flow invocations (one queue fetch, no dead-letter), sleeping
backoff times the attempt number between consecutive attempts, and the
queue item is acknowledged exactly once; for one that fails maxAttempts
times, it ends with terminal status failed, the raw item moved to the
dead-letter store exactly once, again with exactly one fetch and one
acknowledgement. -/
theorem c4_retry_invariant :
    (∀ (maxA backoff : Nat) (flow : Nat → Except String String) (N : Nat) (tx : String),
      1 ≤ N → N ≤ maxA →
      (∀ i, 1 ≤ i → i < N → ∃ e, flow i = .error e) → flow N = .ok tx →
      ∃ pre, (consumeValidatedIntent maxA backoff flow).run.statuses = pre ++ [.succeeded tx] ∧
        (consumeValidatedIntent maxA backoff flow).run.flowCalls = N ∧
        (consumeValidatedIntent maxA backoff flow).run.deadLetters = 0 ∧
        (consumeValidatedIntent maxA backoff flow).run.sleeps =
          (List.range (N - 1)).map (fun i => backoff * (i + 1)) ∧
        (consumeValidatedIntent maxA backoff flow).acks = 1 ∧
        (consumeValidatedIntent maxA backoff flow).fetches = 1) ∧
    (∀ (maxA backoff : Nat) (flow : Nat → Except String String),
      1 ≤ maxA →
      (∀ i, 1 ≤ i → i ≤ maxA → ∃ e, flow i = .error e) →
      ∃ pre e, (consumeValidatedIntent maxA backoff flow).run.statuses = pre ++ [.failed e] ∧
        (consumeValidatedIntent maxA backoff flow).run.deadLetters = 1 ∧
        (consumeValidatedIntent maxA backoff flow).run.flowCalls = maxA ∧
        (consumeValidatedIntent maxA backoff flow).run.sleeps =
          (List.range (maxA - 1)).map (fun i => backoff * (i + 1)) ∧
        (consumeValidatedIntent maxA backoff flow).acks = 1 ∧
        (consumeValidatedIntent maxA backoff flow).fetches = 1) := by
  constructor
  · intro maxA backoff flow N tx hN hmax hfail hok
    simp only [consumeValidatedIntent]
    obtain ⟨pre, hst, hfc, hdl, hsl⟩ :=
      retry_success_trace maxA backoff flow N tx (N - 1) 0 (by omega) hmax
        (fun i hi hiN => hfail i (by omega) hiN) hok
    refine ⟨pre, hst, by omega, hdl, ?_, trivial, trivial⟩
    rw [hsl]
    have h0 : N - 0 - 1 = N - 1 := by omega
    rw [h0]
    apply List.map_congr_left
    intro i _
    congr 1
    omega
  · intro maxA backoff flow hmax hfail
    simp only [consumeValidatedIntent]
    obtain ⟨pre, e, hst, hfc, hdl, hsl⟩ :=
      retry_failure_trace maxA backoff flow (maxA - 1) 0 (by omega)
        (fun i hi hiM => hfail i (by omega) hiM)
    refine ⟨pre, e, hst, hdl, by omega, ?_, trivial, trivial⟩
    rw [hsl]
    have h0 : maxA - 0 - 1 = maxA - 1 := by omega
    rw [h0]
    apply List.map_congr_left
    intro i _
    congr 1
    omega

theorem c4_retry_invariant_witness :
    (∃ pre, (consumeValidatedIntent 3 100
        (fun i => if i = 2 then .ok "abc" else .error "boom")).run.statuses =
          pre ++ [.succeeded "abc"] ∧
      (consumeValidatedIntent 3 100
        (fun i => if i = 2 then .ok "abc" else .error "boom")).run.flowCalls = 2 ∧
      (consumeValidatedIntent 3 100
        (fun i => if i = 2 then .ok "abc" else .error "boom")).run.deadLetters = 0 ∧
      (consumeValidatedIntent 3 100
        (fun i => if i = 2 then .ok "abc" else .error "boom")).run.sleeps =
          (List.range (2 - 1)).map (fun i => 100 * (i + 1)) ∧
      (consumeValidatedIntent 3 100
        (fun i => if i = 2 then .ok "abc" else .error "boom")).acks = 1 ∧
      (consumeValidatedIntent 3 100
        (fun i => if i = 2 then .ok "abc" else .error "boom")).fetches = 1) ∧
    (∃ pre e, (consumeValidatedIntent 3 100
        (fun _ => .error "boom")).run.statuses = pre ++ [.failed e] ∧
      (consumeValidatedIntent 3 100 (fun _ => .error "boom")).run.deadLetters = 1 ∧
      (consumeValidatedIntent 3 100 (fun _ => .error "boom")).run.flowCalls = 3 ∧
      (consumeValidatedIntent 3 100 (fun _ => .error "boom")).run.sleeps =
        (List.range (3 - 1)).map (fun i => 100 * (i + 1)) ∧
      (consumeValidatedIntent 3 100 (fun _ => .error "boom")).acks = 1 ∧
      (consumeValidatedIntent 3 100 (fun _ => .error "boom")).fetches = 1) :=
  ⟨c4_retry_invariant.1 3 100 (fun i => if i = 2 then .ok "abc" else .error "boom")
      2 "abc" (by omega) (by omega)
      (fun i h1 h2 => ⟨"boom", by
        have hi : i = 1 := by omega
        subst hi
        rfl⟩) rfl,
   c4_retry_invariant.2 3 100 (fun _ => .error "boom") (by omega)
      (fun i _ _ => ⟨"boom", rfl⟩)⟩

theorem u32le_inj {a b : Nat} (ha : a < 4294967296) (hb : b < 4294967296)
    (h : u32le a = u32le b) : a = b := by
  simp only [u32le, List.cons.injEq, and_true] at h
  omega

theorem serializeNEP413Core_inj {tag : Nat} {m n r m' n' r' : List Nat}
    (hn : n.length = 32) (hn' : n'.length = 32)
    (hm : m.length < 4294967296) (hm' : m'.length < 4294967296)
    (h : serializeNEP413Core tag m n r none = serializeNEP413Core tag m' n' r' none) :
    m = m' ∧ n = n' ∧ r = r' := by
  unfold serializeNEP413Core at h
  simp only [List.append_assoc] at h
  have h1 := List.append_cancel_left h
  obtain ⟨hlm, h2⟩ := List.append_inj h1 (rfl : (u32le m.length).length = 4)
  have hmm : m.length = m'.length := u32le_inj hm hm' hlm
  obtain ⟨hmeq, h3⟩ := List.append_inj h2 hmm
  obtain ⟨hneq, h4⟩ := List.append_inj h3 (by rw [hn, hn'])
  obtain ⟨hlr, h5⟩ := List.append_inj h4 (rfl : (u32le r.length).length = 4)
  obtain ⟨hreq, _⟩ := List.append_inj' h5 rfl
  exact ⟨hmeq, hneq, hreq⟩

/-- C2: over an idealized Ed25519/SHA-256 scheme, a NEP-413 signature
object produced by a real signer (Ed25519 signature over SHA-256 of the
Borsh encoding with the 2^31+413 tag, length-prefixed message, 32-byte
nonce, length-prefixed recipient and absent callbackUrl) verifies; and any
change to the message, nonce (kept 32 bytes) or recipient, or any change
to the signature bytes, makes `verifyNearSignatureBytes` return false. -/
theorem c2_nep413_verification :
    ∀ (E : Ed25519Scheme) (message nonce recipient sk : List Nat),
      nonce.length = 32 → message.length < 4294967296 →
      (verifyNearSignatureBytes E message nonce recipient
        (E.sign sk (E.hash (serializeNEP413Core NEP413_TAG message nonce recipient none)))
        (E.keyOf sk) = true) ∧
      (∀ message' nonce' recipient', nonce'.length = 32 →
        message'.length < 4294967296 →
        (message' ≠ message ∨ nonce' ≠ nonce ∨ recipient' ≠ recipient) →
        verifyNearSignatureBytes E message' nonce' recipient'
          (E.sign sk (E.hash (serializeNEP413Core NEP413_TAG message nonce recipient none)))
          (E.keyOf sk) = false) ∧
      (∀ s', s' ≠ E.sign sk (E.hash (serializeNEP413Core NEP413_TAG message nonce recipient none)) →
        verifyNearSignatureBytes E message nonce recipient s' (E.keyOf sk) = false) := by
  intro E message nonce recipient sk hn hm
  have hlen : ¬(nonce.length ≠ 32) := by simp [hn]
  refine ⟨?_, ?_, ?_⟩
  · rw [verifyNearSignatureBytes, if_neg hlen, serializeNEP413Payload, if_neg hlen]
    exact (E.verify_eq sk _ _).mpr rfl
  · intro message' nonce' recipient' hn' hm' hdiff
    have hlen' : ¬(nonce'.length ≠ 32) := by simp [hn']
    rw [verifyNearSignatureBytes, if_neg hlen', serializeNEP413Payload, if_neg hlen']
    cases hv : E.verify (E.hash (serializeNEP413Core NEP413_TAG message' nonce' recipient' none))
        (E.sign sk (E.hash (serializeNEP413Core NEP413_TAG message nonce recipient none)))
        (E.keyOf sk) with
    | false => exact hv
    | true =>
      exfalso
      have hs := (E.verify_eq sk _ _).mp hv
      have hh := E.sign_injective sk hs
      have hser := E.hash_injective hh
      obtain ⟨hmeq, hneq, hreq⟩ := serializeNEP413Core_inj hn hn' hm hm' hser
      rcases hdiff with hd | hd | hd
      · exact hd hmeq.symm
      · exact hd hneq.symm
      · exact hd hreq.symm
  · intro s' hs'
    rw [verifyNearSignatureBytes, if_neg hlen, serializeNEP413Payload, if_neg hlen]
    cases hv : E.verify (E.hash (serializeNEP413Core NEP413_TAG message nonce recipient none))
        s' (E.keyOf sk) with
    | false => exact hv
    | true => exact absurd ((E.verify_eq sk _ _).mp hv) hs'

theorem c2_nep413_verification_witness :
    verifyNearSignatureBytes toyScheme [1] (List.replicate 32 0) [2]
      (toyScheme.sign [3] (toyScheme.hash
        (serializeNEP413Core NEP413_TAG [1] (List.replicate 32 0) [2] none)))
      (toyScheme.keyOf [3]) = true :=
  (c2_nep413_verification toyScheme [1] (List.replicate 32 0) [2] [3]
    (by simp) (by norm_num)).1

theorem hexCodeVal_hexDigitCode {m : Nat} (hm : m < 16) :
    hexCodeVal (hexDigitCode m) = m := by
  unfold hexCodeVal hexDigitCode
  split_ifs <;> omega

theorem readJSONString_escapeChar (c : Nat) (t : List Nat) :
    readJSONString (jsonEscapeChar c ++ t) =
      (readJSONString t).map (fun p => (c :: p.1, p.2)) := by
  unfold jsonEscapeChar
  split_ifs with h1 h2 h3 h4 h5 h6 h7 h8
  · subst h1; simp [readJSONString]
  · subst h2; simp [readJSONString]
  · subst h3; simp [readJSONString]
  · subst h4; simp [readJSONString]
  · subst h5; simp [readJSONString]
  · subst h6; simp [readJSONString]
  · subst h7; simp [readJSONString]
  · show readJSONString (92 :: 117 :: 48 :: 48 :: hexDigitCode (c / 16) ::
      hexDigitCode (c % 16) :: t) = _
    rw [readJSONString]
    have hv1 : hexCodeVal 48 = 0 := rfl
    have hv2 : hexCodeVal (hexDigitCode (c / 16)) = c / 16 :=
      hexCodeVal_hexDigitCode (by omega)
    have hv3 : hexCodeVal (hexDigitCode (c % 16)) = c % 16 :=
      hexCodeVal_hexDigitCode (by omega)
    rw [hv1, hv2, hv3]
    have : 4096 * 0 + 256 * 0 + 16 * (c / 16) + c % 16 = c := by omega
    rw [this]
  · show readJSONString (c :: t) = _
    rw [readJSONString]
    all_goals simp_all

theorem readJSONString_escape (s : List Nat) : ∀ t : List Nat,
    readJSONString (jsonEscape s ++ 34 :: t) = some (s, t) := by
  induction s with
  | nil => intro t; rfl
  | cons c cs ih =>
    intro t
    show readJSONString ((jsonEscapeChar c ++ jsonEscape cs) ++ 34 :: t) = _
    rw [List.append_assoc, readJSONString_escapeChar, ih]
    rfl

theorem jsonEscape_block_inj {s s' t t' : List Nat}
    (h : jsonEscape s ++ 34 :: t = jsonEscape s' ++ 34 :: t') : s = s' ∧ t = t' := by
  have h2 := congrArg readJSONString h
  rw [readJSONString_escape, readJSONString_escape] at h2
  simpa using h2

theorem chunkSourceAmount :
    codes "\",\"sourceAmount\":\"" = 34 :: codes ",\"sourceAmount\":\"" := rfl

theorem chunkDestinationAmt :
    codes "\",\"destinationAmount\":\"" = 34 :: codes ",\"destinationAmount\":\"" := rfl

theorem chunkFinalAsset :
    codes "\",\"finalAsset\":\"" = 34 :: codes ",\"finalAsset\":\"" := rfl

theorem chunkUserDestination :
    codes "\",\"userDestination\":\"" = 34 :: codes ",\"userDestination\":\"" := rfl

theorem chunkActionKey :
    codes "\",\"action\":\"" = 34 :: codes ",\"action\":\"" := rfl

theorem chunkClose : codes "\"\x7d" = 34 :: [125] := rfl

theorem chunkDestinationExp :
    codes ",\"destinationAmount\":\"" = 44 :: 34 :: 100 :: codes "estinationAmount\":\"" := rfl

theorem chunkFinalExp :
    codes ",\"finalAsset\":\"" = 44 :: 34 :: 102 :: codes "inalAsset\":\"" := rfl

theorem chunkActionExp :
    codes ",\"action\":\"" = 44 :: 34 :: 97 :: codes "ction\":\"" := rfl

theorem serializeIntentSigningPayload_inj
    {id1 src1 fin1 usr1 id2 src2 fin2 usr2 : List Nat}
    {dst1 dst2 act1 act2 : Option (List Nat)}
    (h : serializeIntentSigningPayload id1 src1 dst1 fin1 usr1 act1 =
      serializeIntentSigningPayload id2 src2 dst2 fin2 usr2 act2) :
    id1 = id2 ∧ src1 = src2 ∧ dst1 = dst2 ∧ fin1 = fin2 ∧ usr1 = usr2 ∧ act1 = act2 := by
  cases dst1 <;> cases dst2 <;>
    simp only [serializeIntentSigningPayload, chunkSourceAmount, chunkDestinationAmt,
      chunkFinalAsset, chunkUserDestination, chunkActionKey, chunkClose,
      List.append_assoc, List.cons_append, List.nil_append, List.append_nil] at h <;>
    obtain ⟨hid, h⟩ := jsonEscape_block_inj (List.append_cancel_left h) <;>
    obtain ⟨hsrc, h⟩ := jsonEscape_block_inj (List.append_cancel_left h) <;>
    refine ⟨hid, hsrc, ?_⟩
  · obtain ⟨hfin, h⟩ := jsonEscape_block_inj (List.append_cancel_left h)
    refine ⟨rfl, hfin, ?_⟩
    cases act1 <;> cases act2 <;>
      simp only [List.nil_append, List.cons_append, List.append_assoc] at h <;>
      obtain ⟨husr, h⟩ := jsonEscape_block_inj (List.append_cancel_left h)
    · exact ⟨husr, rfl⟩
    · rw [chunkActionExp] at h
      simp at h
    · rw [chunkActionExp] at h
      simp at h
    · obtain ⟨hact, h⟩ := jsonEscape_block_inj (List.append_cancel_left h)
      exact ⟨husr, by rw [hact]⟩
  · rw [chunkDestinationExp, chunkFinalExp] at h
    simp at h
  · rw [chunkDestinationExp, chunkFinalExp] at h
    simp at h
  · obtain ⟨hdst, h⟩ := jsonEscape_block_inj (List.append_cancel_left h)
    obtain ⟨hfin, h⟩ := jsonEscape_block_inj (List.append_cancel_left h)
    refine ⟨by rw [hdst], hfin, ?_⟩
    cases act1 <;> cases act2 <;>
      simp only [List.nil_append, List.cons_append, List.append_assoc] at h <;>
      obtain ⟨husr, h⟩ := jsonEscape_block_inj (List.append_cancel_left h)
    · exact ⟨husr, rfl⟩
    · rw [chunkActionExp] at h
      simp at h
    · rw [chunkActionExp] at h
      simp at h
    · obtain ⟨hact, h⟩ := jsonEscape_block_inj (List.append_cancel_left h)
      exact ⟨husr, by rw [hact]⟩

/-- C7: `createIntentSigningMessage` is deterministic, and changing any
one of sourceAmount, destinationAmount (including its presence),
finalAsset, userDestination, or metadata.action changes the hash whenever
the hash function is injective (idealized SHA-256), because the
underlying serialized JSON strings already differ. -/
theorem c7_signing_message_deterministic_and_sensitive :
    ∀ (H : List Nat → List Nat), Function.Injective H →
    ∀ (intentId sourceAmount : List Nat) (destinationAmount : Option (List Nat))
      (finalAsset userDestination : List Nat) (action : Option (List Nat)),
      createIntentSigningMessage H intentId sourceAmount destinationAmount
          finalAsset userDestination action =
        createIntentSigningMessage H intentId sourceAmount destinationAmount
          finalAsset userDestination action ∧
      (∀ src', src' ≠ sourceAmount →
        createIntentSigningMessage H intentId src' destinationAmount
            finalAsset userDestination action ≠
          createIntentSigningMessage H intentId sourceAmount destinationAmount
            finalAsset userDestination action) ∧
      (∀ dst', dst' ≠ destinationAmount →
        createIntentSigningMessage H intentId sourceAmount dst'
            finalAsset userDestination action ≠
          createIntentSigningMessage H intentId sourceAmount destinationAmount
            finalAsset userDestination action) ∧
      (∀ fin', fin' ≠ finalAsset →
        createIntentSigningMessage H intentId sourceAmount destinationAmount
            fin' userDestination action ≠
          createIntentSigningMessage H intentId sourceAmount destinationAmount
            finalAsset userDestination action) ∧
      (∀ usr', usr' ≠ userDestination →
        createIntentSigningMessage H intentId sourceAmount destinationAmount
            finalAsset usr' action ≠
          createIntentSigningMessage H intentId sourceAmount destinationAmount
            finalAsset userDestination action) ∧
      (∀ act', act' ≠ action →
        createIntentSigningMessage H intentId sourceAmount destinationAmount
            finalAsset userDestination act' ≠
          createIntentSigningMessage H intentId sourceAmount destinationAmount
            finalAsset userDestination action) := by
  intro H hinj intentId sourceAmount destinationAmount finalAsset userDestination action
  refine ⟨rfl, ?_, ?_, ?_, ?_, ?_⟩
  · intro src' hne h
    exact hne (serializeIntentSigningPayload_inj (hinj h)).2.1
  · intro dst' hne h
    exact hne (serializeIntentSigningPayload_inj (hinj h)).2.2.1
  · intro fin' hne h
    exact hne (serializeIntentSigningPayload_inj (hinj h)).2.2.2.1
  · intro usr' hne h
    exact hne (serializeIntentSigningPayload_inj (hinj h)).2.2.2.2.1
  · intro act' hne h
    exact hne (serializeIntentSigningPayload_inj (hinj h)).2.2.2.2.2

theorem c7_signing_message_deterministic_and_sensitive_witness :
    createIntentSigningMessage id (codes "t1") (codes "2000000") none
        (codes "FIN") (codes "USER") (some (codes "swap")) ≠
      createIntentSigningMessage id (codes "t1") (codes "1000000") none
        (codes "FIN") (codes "USER") (some (codes "swap")) :=
  (c7_signing_message_deterministic_and_sensitive id (fun _ _ hab => hab)
      (codes "t1") (codes "1000000") none (codes "FIN") (codes "USER")
      (some (codes "swap"))).2.1 (codes "2000000") (by decide)

theorem digitsFuel_eq_digits {b : Nat} (hb : 2 ≤ b) :
    ∀ fuel n, n ≤ fuel → digitsFuel b fuel n = Nat.digits b n := by
  intro fuel
  induction fuel with
  | zero =>
    intro n hn
    have hn0 : n = 0 := by omega
    subst hn0
    rw [Nat.digits_zero]
    rfl
  | succ fuel ih =>
    intro n hn
    cases n with
    | zero =>
      rw [Nat.digits_zero]
      rfl
    | succ m =>
      rw [show digitsFuel b (fuel + 1) (m + 1) =
        (m + 1) % b :: digitsFuel b fuel ((m + 1) / b) from rfl]
      have hdiv : (m + 1) / b < m + 1 := Nat.div_lt_self (Nat.succ_pos m) (by omega)
      rw [ih ((m + 1) / b) (by omega)]
      rw [Nat.digits_def' (by omega : 1 < b) (Nat.succ_pos m)]

theorem charIdx_lt_length {c : Char} : ∀ {l : List Char} {d : Nat},
    charIdx c l = some d → d < l.length := by
  intro l
  induction l with
  | nil => intro d h; cases h
  | cons x xs ih =>
    intro d h
    rw [charIdx] at h
    split_ifs at h with hx
    · cases h
      simp
    · cases hd : charIdx c xs with
      | none => rw [hd] at h; cases h
      | some d' =>
        rw [hd] at h
        cases h
        have := ih hd
        simp
        omega

theorem ofDigits_replicate_zero (b : Nat) : ∀ z, Nat.ofDigits b (List.replicate z 0) = 0 := by
  intro z
  induction z with
  | zero => rfl
  | succ z ih =>
    rw [List.replicate_succ, Nat.ofDigits_cons, ih]
    simp

theorem countLeadingZeros_replicate_append (l : List Nat) :
    ∀ z, countLeadingZeros (List.replicate z 0 ++ l) = z + countLeadingZeros l := by
  intro z
  induction z with
  | zero => simp
  | succ z ih =>
    rw [List.replicate_succ, List.cons_append,
      show countLeadingZeros (0 :: (List.replicate z 0 ++ l)) =
        countLeadingZeros (List.replicate z 0 ++ l) + 1 from rfl, ih]
    omega

theorem countLeadingZeros_cons_ne {h : Nat} (t : List Nat) (hh : h ≠ 0) :
    countLeadingZeros (h :: t) = 0 := by
  cases h with
  | zero => exact absurd rfl hh
  | succ m => rfl

theorem countLeadingZeros_nil : countLeadingZeros [] = 0 := rfl

theorem leading_zero_decomp : ∀ l : List Nat,
    ∃ z rest, l = List.replicate z 0 ++ rest ∧
      (rest = [] ∨ ∃ h t, rest = h :: t ∧ h ≠ 0) := by
  intro l
  induction l with
  | nil => exact ⟨0, [], rfl, Or.inl rfl⟩
  | cons x xs ih =>
    cases x with
    | zero =>
      obtain ⟨z, rest, hxs, hr⟩ := ih
      exact ⟨z + 1, rest, by rw [List.replicate_succ, List.cons_append, hxs], hr⟩
    | succ m =>
      exact ⟨0, (m + 1) :: xs, rfl, Or.inr ⟨m + 1, xs, rfl, by omega⟩⟩

theorem decodeChars_append {f : Char → Option Nat} :
    ∀ {l1 l2 : List Char} {d1 d2 : List Nat},
      decodeChars f l1 = some d1 → decodeChars f l2 = some d2 →
      decodeChars f (l1 ++ l2) = some (d1 ++ d2) := by
  intro l1
  induction l1 with
  | nil =>
    intro l2 d1 d2 h1 h2
    cases h1
    simpa using h2
  | cons c cs ih =>
    intro l2 d1 d2 h1 h2
    rw [decodeChars] at h1
    cases hc : f c with
    | none => rw [hc] at h1; cases h1
    | some v =>
      rw [hc] at h1
      cases hcs : decodeChars f cs with
      | none => rw [hcs] at h1; cases h1
      | some ds =>
        rw [hcs] at h1
        cases h1
        rw [List.cons_append, decodeChars, hc, ih hcs h2]
        rfl

theorem decodeChars_none_of_mem {f : Char → Option Nat} :
    ∀ {l : List Char} {c : Char}, c ∈ l → f c = none → decodeChars f l = none := by
  intro l
  induction l with
  | nil => intro c hc; cases hc
  | cons x xs ih =>
    intro c hc hf
    rw [decodeChars]
    rcases List.mem_cons.mp hc with rfl | hmem
    · rw [hf]
    · cases hx : f x with
      | none => rfl
      | some v => rw [ih hmem hf]

theorem decodeChars_length {f : Char → Option Nat} :
    ∀ {l : List Char} {d : List Nat}, decodeChars f l = some d → d.length = l.length := by
  intro l
  induction l with
  | nil => intro d h; cases h; rfl
  | cons c cs ih =>
    intro d h
    rw [decodeChars] at h
    cases hc : f c with
    | none => rw [hc] at h; cases h
    | some v =>
      rw [hc] at h
      cases hcs : decodeChars f cs with
      | none => rw [hcs] at h; cases h
      | some ds =>
        rw [hcs] at h
        cases h
        simp [ih hcs]

theorem b58_roundtrip_digit : ∀ d, d < 58 → b58DigitOfChar (b58CharOfDigit d) = some d := by
  decide

theorem b58DigitOfChar_lt {c : Char} {d : Nat} (h : b58DigitOfChar c = some d) : d < 58 :=
  charIdx_lt_length h

theorem natToBeBytes_eq (n : Nat) : natToBeBytes n = (Nat.digits 256 n).reverse := by
  rw [natToBeBytes, digitsFuel_eq_digits (by omega) n n (le_refl n)]

theorem natToBeBytes_beBytesToNat : ∀ (h : Nat) (t : List Nat), h ≠ 0 →
    (∀ x ∈ h :: t, x < 256) → natToBeBytes (beBytesToNat (h :: t)) = h :: t := by
  intro h t hh hlt
  rw [natToBeBytes_eq, beBytesToNat]
  rw [show (h :: t).reverse = t.reverse ++ [h] from by simp]
  rw [Nat.digits_ofDigits 256 (by omega) (t.reverse ++ [h])
    (by
      intro x hx
      rcases List.mem_append.mp hx with hx | hx
      · exact hlt x (List.mem_cons_of_mem h (List.mem_reverse.mp hx))
      · rcases List.mem_singleton.mp hx with rfl
        exact hlt x (List.mem_cons_self x t))
    (by
      intro hne
      rw [List.getLast_append]
      exact hh)]
  simp

theorem beBytesToNat_replicate_append (rest : List Nat) (z : Nat) :
    beBytesToNat (List.replicate z 0 ++ rest) = beBytesToNat rest := by
  rw [beBytesToNat, beBytesToNat, List.reverse_append, List.reverse_replicate,
    Nat.ofDigits_append, ofDigits_replicate_zero]
  simp

theorem decodeChars_replicate_one :
    ∀ z, decodeChars b58DigitOfChar (List.replicate z '1') = some (List.replicate z 0) := by
  intro z
  induction z with
  | zero => rfl
  | succ z ih =>
    rw [List.replicate_succ, decodeChars, ih,
      show b58DigitOfChar '1' = some 0 from rfl, List.replicate_succ]

theorem decodeChars_map_b58 :
    ∀ l : List Nat, (∀ d ∈ l, d < 58) →
      decodeChars b58DigitOfChar (l.map b58CharOfDigit) = some l := by
  intro l
  induction l with
  | nil => intro _; rfl
  | cons d ds ih =>
    intro hlt
    rw [List.map_cons, decodeChars,
      b58_roundtrip_digit d (hlt d (List.mem_cons_self d ds)),
      ih (fun x hx => hlt x (List.mem_cons_of_mem d hx))]

theorem beBytesToNat_cons_pos {h : Nat} (t : List Nat) (hh : h ≠ 0) :
    0 < beBytesToNat (h :: t) := by
  rw [beBytesToNat, show (h :: t).reverse = t.reverse ++ [h] from by simp,
    Nat.ofDigits_append]
  have : (0 : Nat) < 256 ^ t.reverse.length * Nat.ofDigits 256 [h] := by
    apply Nat.mul_pos (Nat.pos_pow_of_pos _ (by omega))
    simp [Nat.ofDigits]
    omega
  omega

theorem countLeadingZeros_replicate (z : Nat) :
    countLeadingZeros (List.replicate z 0) = z := by
  have := countLeadingZeros_replicate_append [] z
  simpa using this

theorem base58_roundtrip (bytes : List Nat) (hb : ∀ x ∈ bytes, x < 256) :
    base58Decode (base58Encode bytes) = some bytes := by
  obtain ⟨z, rest, rfl, hr⟩ := leading_zero_decomp bytes
  rw [base58Encode, beBytesToNat_replicate_append, countLeadingZeros_replicate_append,
    digitsFuel_eq_digits (by omega) _ _ (le_refl _), base58Decode]
  dsimp only
  rcases hr with rfl | ⟨h, t, rfl, hh⟩
  · rw [show beBytesToNat [] = 0 from rfl, Nat.digits_zero]
    simp only [List.reverse_nil, List.map_nil, List.append_nil, countLeadingZeros_nil,
      Nat.add_zero]
    rw [decodeChars_replicate_one z]
    dsimp only
    rw [countLeadingZeros_replicate, List.reverse_replicate, ofDigits_replicate_zero]
    rw [show natToBeBytes 0 = [] from rfl]
    simp
  · have hn0 : beBytesToNat (h :: t) ≠ 0 := by
      have := beBytesToNat_cons_pos t hh
      omega
    have hdig : ∀ d ∈ (Nat.digits 58 (beBytesToNat (h :: t))).reverse, d < 58 := by
      intro d hd
      exact Nat.digits_lt_base (by omega) (List.mem_reverse.mp hd)
    have hdr := decodeChars_map_b58 _ hdig
    rw [countLeadingZeros_cons_ne t hh, Nat.add_zero]
    rw [decodeChars_append (decodeChars_replicate_one z) hdr]
    dsimp only
    have hne : Nat.digits 58 (beBytesToNat (h :: t)) ≠ [] :=
      Nat.digits_ne_nil_iff_ne_zero.mpr hn0
    have hrevne : (Nat.digits 58 (beBytesToNat (h :: t))).reverse ≠ [] := by
      intro hrev
      exact hne (by simpa using congrArg List.reverse hrev)
    obtain ⟨d0, ds, hds⟩ := List.exists_cons_of_ne_nil hrevne
    have hd0 : d0 ≠ 0 := by
      have hlast := Nat.getLast_digit_ne_zero 58 hn0
      have h1 : (Nat.digits 58 (beBytesToNat (h :: t))).getLast? = some d0 := by
        rw [← List.head?_reverse, hds]
        rfl
      rw [List.getLast?_eq_getLast _ hne] at h1
      intro hz
      rw [hz] at h1
      exact hlast (Option.some.inj h1)
    rw [countLeadingZeros_replicate_append, hds, countLeadingZeros_cons_ne ds hd0,
      Nat.add_zero, ← hds]
    rw [List.reverse_append, List.reverse_reverse, List.reverse_replicate,
      Nat.ofDigits_append, Nat.ofDigits_digits, ofDigits_replicate_zero]
    rw [Nat.mul_zero, Nat.add_zero]
    rw [natToBeBytes_beBytesToNat h t hh (fun x hx => hb x (by
      rcases List.mem_cons.mp hx with rfl | hx
      · exact List.mem_append_right _ (List.mem_cons_self x t)
      · exact List.mem_append_right _ (List.mem_cons_of_mem h hx)))]

theorem decodeChars_b58_all_lt :
    ∀ {l : List Char} {ds : List Nat}, decodeChars b58DigitOfChar l = some ds →
      ∀ x ∈ ds, x < 58 := by
  intro l
  induction l with
  | nil =>
    intro ds h x hx
    cases h
    cases hx
  | cons c cs ih =>
    intro ds h x hx
    rw [decodeChars] at h
    cases hc : b58DigitOfChar c with
    | none => rw [hc] at h; cases h
    | some v =>
      rw [hc] at h
      cases hcs : decodeChars b58DigitOfChar cs with
      | none => rw [hcs] at h; cases h
      | some ds' =>
        rw [hcs] at h
        cases h
        rcases List.mem_cons.mp hx with rfl | hx
        · exact b58DigitOfChar_lt hc
        · exact ih hcs x hx

theorem base58Decode_length_ne_64 {s : String} {d : List Nat}
    (hdec : base58Decode s = some d) (hlen : s.data.length = 128) :
    d.length ≠ 64 := by
  rw [base58Decode] at hdec
  cases hdc : decodeChars b58DigitOfChar s.data with
  | none => rw [hdc] at hdec; cases hdec
  | some digitsBE =>
    rw [hdc] at hdec
    have hlenD : digitsBE.length = 128 := by rw [decodeChars_length hdc, hlen]
    obtain ⟨z, rest, hdig, hr⟩ := leading_zero_decomp digitsBE
    cases hdec
    rcases hr with rfl | ⟨h, t, rfl, hh⟩
    · -- all zero digits
      subst hdig
      rw [List.append_nil] at hlenD ⊢
      rw [countLeadingZeros_replicate, List.reverse_replicate, ofDigits_replicate_zero,
        show natToBeBytes 0 = [] from rfl]
      simp only [List.append_nil, List.length_replicate]
      rw [List.length_replicate] at hlenD
      omega
    · subst hdig
      have htlen : t.length = 127 - z ∧ z ≤ 127 := by
        rw [List.length_append, List.length_replicate, List.length_cons] at hlenD
        omega
      rw [countLeadingZeros_replicate_append, countLeadingZeros_cons_ne t hh, Nat.add_zero]
      rw [List.reverse_append, List.reverse_replicate,
        show (h :: t).reverse = t.reverse ++ [h] from by simp]
      rw [List.append_assoc, Nat.ofDigits_append, Nat.ofDigits_append,
        ofDigits_replicate_zero, Nat.ofDigits_singleton]
      rw [Nat.mul_zero, Nat.add_zero]
      set n := Nat.ofDigits 58 t.reverse + 58 ^ t.reverse.length * h with hn
      intro hcontra
      rw [List.length_append, List.length_replicate, natToBeBytes_eq,
        List.length_reverse] at hcontra
      have hz64 : z ≤ 63 ∧ (Nat.digits 256 n).length = 64 - z := by
        constructor
        · by_contra hz
          have hL : (Nat.digits 256 n).length = 0 := by omega
          have : n = 0 := by
            have := Nat.digits_ne_nil_iff_ne_zero (b := 256) (n := n)
            by_contra hn0
            have hnil := List.length_eq_zero.mp hL
            exact (this.mpr hn0) hnil
          have hpos : 0 < n := by
            rw [hn]
            have h1 : (0:Nat) < 58 ^ t.reverse.length * h :=
              Nat.mul_pos (Nat.pos_pow_of_pos _ (by omega)) (by omega)
            omega
          omega
        · omega
      obtain ⟨hz63, hL⟩ := hz64
      have hlow : (58:Nat) ^ t.length ≤ n := by
        rw [hn, List.length_reverse]
        have h1 : (58:Nat) ^ t.length ≤ 58 ^ t.length * h :=
          Nat.le_mul_of_pos_right _ (by omega)
        omega
      have hup : n < 256 ^ (64 - z) := by
        rw [← hL]
        exact Nat.lt_base_pow_length_digits (by omega)
      have h32 : (32:Nat) ^ t.length ≤ 58 ^ t.length :=
        Nat.pow_le_pow_left (by omega) _
      have hpowlt : (2:Nat) ^ (5 * t.length) < 2 ^ (8 * (64 - z)) := by
        calc (2:Nat) ^ (5 * t.length) = 32 ^ t.length := by
              rw [Nat.pow_mul]
          _ ≤ 58 ^ t.length := h32
          _ ≤ n := hlow
          _ < 256 ^ (64 - z) := hup
          _ = 2 ^ (8 * (64 - z)) := by rw [Nat.pow_mul]
      have hexp : 5 * t.length < 8 * (64 - z) :=
        (Nat.pow_lt_pow_iff_right (by omega)).mp hpowlt
      omega

theorem b64_roundtrip_val : ∀ v, v < 64 → b64ValOfChar (b64CharOfVal v) = some v := by
  decide

theorem b64CharOfVal_ne_pad : ∀ v, v < 64 → b64CharOfVal v ≠ '=' := by
  decide

theorem b64CharOfVal_regex : ∀ v, v < 64 → isBase64RegexChar (b64CharOfVal v) = true := by
  decide

theorem isBase64RegexChar_pad : isBase64RegexChar '=' = true := by decide

theorem base64EncodeCore_length : ∀ l : List Nat,
    (base64EncodeCore l).length = 4 * ((l.length + 2) / 3)
  | [] => by simp [base64EncodeCore]
  | [a] => by simp [base64EncodeCore]
  | [a, b] => by simp [base64EncodeCore]
  | a :: b :: d :: rest => by
    rw [show base64EncodeCore (a :: b :: d :: rest) =
      b64CharOfVal (a / 4) :: b64CharOfVal (a % 4 * 16 + b / 16) ::
        b64CharOfVal (b % 16 * 4 + d / 64) :: b64CharOfVal (d % 64) ::
        base64EncodeCore rest from rfl]
    simp only [List.length_cons, base64EncodeCore_length rest]
    omega

theorem base64_roundtrip : ∀ l : List Nat, (∀ x ∈ l, x < 256) →
    base64DecodeCore (base64EncodeCore l) = some l
  | [] => fun _ => rfl
  | [a] => fun h => by
    have ha : a < 256 := h a (by simp)
    rw [show base64EncodeCore [a] =
      [b64CharOfVal (a / 4), b64CharOfVal (a % 4 * 16), '=', '='] from rfl]
    rw [base64DecodeCore]
    rw [if_pos ⟨rfl, rfl, rfl⟩]
    rw [b64_roundtrip_val (a / 4) (by omega), b64_roundtrip_val (a % 4 * 16) (by omega)]
    dsimp only
    have hval : a / 4 * 4 + a % 4 * 16 / 16 = a := by omega
    rw [hval]
  | [a, b] => fun h => by
    have ha : a < 256 := h a (by simp)
    have hb : b < 256 := h b (by simp)
    rw [show base64EncodeCore [a, b] =
      [b64CharOfVal (a / 4), b64CharOfVal (a % 4 * 16 + b / 16),
        b64CharOfVal (b % 16 * 4), '='] from rfl]
    rw [base64DecodeCore]
    rw [if_neg (fun hc => b64CharOfVal_ne_pad (b % 16 * 4) (by omega) hc.1)]
    rw [if_pos ⟨rfl, rfl⟩]
    rw [b64_roundtrip_val (a / 4) (by omega),
      b64_roundtrip_val (a % 4 * 16 + b / 16) (by omega),
      b64_roundtrip_val (b % 16 * 4) (by omega)]
    dsimp only
    have h1 : a / 4 * 4 + (a % 4 * 16 + b / 16) / 16 = a := by omega
    have h2 : (a % 4 * 16 + b / 16) % 16 * 16 + b % 16 * 4 / 4 = b := by omega
    rw [h1, h2]
  | a :: b :: d :: rest => fun h => by
    have ha : a < 256 := h a (by simp)
    have hb : b < 256 := h b (by simp)
    have hd : d < 256 := h d (by simp)
    rw [show base64EncodeCore (a :: b :: d :: rest) =
      b64CharOfVal (a / 4) :: b64CharOfVal (a % 4 * 16 + b / 16) ::
        b64CharOfVal (b % 16 * 4 + d / 64) :: b64CharOfVal (d % 64) ::
        base64EncodeCore rest from rfl]
    rw [base64DecodeCore]
    rw [if_neg (fun hc => b64CharOfVal_ne_pad (b % 16 * 4 + d / 64) (by omega) hc.1)]
    rw [if_neg (fun hc => b64CharOfVal_ne_pad (d % 64) (by omega) hc.1)]
    rw [b64_roundtrip_val (a / 4) (by omega),
      b64_roundtrip_val (a % 4 * 16 + b / 16) (by omega),
      b64_roundtrip_val (b % 16 * 4 + d / 64) (by omega),
      b64_roundtrip_val (d % 64) (by omega)]
    rw [base64_roundtrip rest (fun x hx => h x (by simp [hx]))]
    dsimp only
    have h1 : a / 4 * 4 + (a % 4 * 16 + b / 16) / 16 = a := by omega
    have h2 : (a % 4 * 16 + b / 16) % 16 * 16 + (b % 16 * 4 + d / 64) / 4 = b := by omega
    have h3 : (b % 16 * 4 + d / 64) % 4 * 64 + d % 64 = d := by omega
    rw [h1, h2, h3]

theorem base64EncodeCore_mem_pad : ∀ l : List Nat, l.length % 3 ≠ 0 →
    '=' ∈ base64EncodeCore l
  | [] => fun h => absurd rfl h
  | [a] => fun _ => by
    rw [show base64EncodeCore [a] =
      [b64CharOfVal (a / 4), b64CharOfVal (a % 4 * 16), '=', '='] from rfl]
    simp
  | [a, b] => fun _ => by
    rw [show base64EncodeCore [a, b] =
      [b64CharOfVal (a / 4), b64CharOfVal (a % 4 * 16 + b / 16),
        b64CharOfVal (b % 16 * 4), '='] from rfl]
    simp
  | a :: b :: d :: rest => fun h => by
    rw [show base64EncodeCore (a :: b :: d :: rest) =
      b64CharOfVal (a / 4) :: b64CharOfVal (a % 4 * 16 + b / 16) ::
        b64CharOfVal (b % 16 * 4 + d / 64) :: b64CharOfVal (d % 64) ::
        base64EncodeCore rest from rfl]
    have hr : rest.length % 3 ≠ 0 := by
      rw [List.length_cons, List.length_cons, List.length_cons] at h
      omega
    have := base64EncodeCore_mem_pad rest hr
    simp [this]

theorem base64EncodeCore_chars : ∀ l : List Nat, (∀ x ∈ l, x < 256) →
    ∀ c ∈ base64EncodeCore l, isBase64RegexChar c = true
  | [] => fun _ c hc => absurd hc (by simp [base64EncodeCore])
  | [a] => fun h c hc => by
    have ha : a < 256 := h a (by simp)
    rw [show base64EncodeCore [a] =
      [b64CharOfVal (a / 4), b64CharOfVal (a % 4 * 16), '=', '='] from rfl] at hc
    simp only [List.mem_cons, List.not_mem_nil, or_false] at hc
    rcases hc with rfl | rfl | rfl | rfl
    · exact b64CharOfVal_regex (a / 4) (by omega)
    · exact b64CharOfVal_regex (a % 4 * 16) (by omega)
    · exact isBase64RegexChar_pad
    · exact isBase64RegexChar_pad
  | [a, b] => fun h c hc => by
    have ha : a < 256 := h a (by simp)
    have hb : b < 256 := h b (by simp)
    rw [show base64EncodeCore [a, b] =
      [b64CharOfVal (a / 4), b64CharOfVal (a % 4 * 16 + b / 16),
        b64CharOfVal (b % 16 * 4), '='] from rfl] at hc
    simp only [List.mem_cons, List.not_mem_nil, or_false] at hc
    rcases hc with rfl | rfl | rfl | rfl
    · exact b64CharOfVal_regex (a / 4) (by omega)
    · exact b64CharOfVal_regex (a % 4 * 16 + b / 16) (by omega)
    · exact b64CharOfVal_regex (b % 16 * 4) (by omega)
    · exact isBase64RegexChar_pad
  | a :: b :: d :: rest => fun h c hc => by
    have ha : a < 256 := h a (by simp)
    have hb : b < 256 := h b (by simp)
    have hd : d < 256 := h d (by simp)
    rw [show base64EncodeCore (a :: b :: d :: rest) =
      b64CharOfVal (a / 4) :: b64CharOfVal (a % 4 * 16 + b / 16) ::
        b64CharOfVal (b % 16 * 4 + d / 64) :: b64CharOfVal (d % 64) ::
        base64EncodeCore rest from rfl] at hc
    simp only [List.mem_cons] at hc
    rcases hc with rfl | rfl | rfl | rfl | h5
    · exact b64CharOfVal_regex (a / 4) (by omega)
    · exact b64CharOfVal_regex (a % 4 * 16 + b / 16) (by omega)
    · exact b64CharOfVal_regex (b % 16 * 4 + d / 64) (by omega)
    · exact b64CharOfVal_regex (d % 64) (by omega)
    · exact base64EncodeCore_chars rest (fun x hx => h x (by simp [hx])) c h5

theorem base64DecodeCore_no_pad : ∀ chars : List Char,
    (∀ c ∈ chars, (b64ValOfChar c).isSome ∧ c ≠ '=') → chars.length % 4 = 0 →
    ∃ bytes, base64DecodeCore chars = some bytes ∧ bytes.length = 3 * (chars.length / 4)
  | [] => fun _ _ => ⟨[], rfl, rfl⟩
  | [a] => fun _ h => absurd h (by simp)
  | [a, b] => fun _ h => absurd h (by simp)
  | [a, b, c] => fun _ h => absurd h (by simp)
  | c1 :: c2 :: c3 :: c4 :: rest => fun hmem hlen => by
    have h1 := hmem c1 (by simp)
    have h2 := hmem c2 (by simp)
    have h3 := hmem c3 (by simp)
    have h4 := hmem c4 (by simp)
    have hrlen : rest.length % 4 = 0 := by
      simp only [List.length_cons] at hlen
      omega
    obtain ⟨bytes, hdec, hblen⟩ := base64DecodeCore_no_pad rest
      (fun c hc => hmem c (by simp [hc])) hrlen
    obtain ⟨v1, hv1⟩ := Option.isSome_iff_exists.mp h1.1
    obtain ⟨v2, hv2⟩ := Option.isSome_iff_exists.mp h2.1
    obtain ⟨v3, hv3⟩ := Option.isSome_iff_exists.mp h3.1
    obtain ⟨v4, hv4⟩ := Option.isSome_iff_exists.mp h4.1
    refine ⟨(v1 * 4 + v2 / 16) :: (v2 % 16 * 16 + v3 / 4) :: (v3 % 4 * 64 + v4) :: bytes,
      ?_, ?_⟩
    · rw [base64DecodeCore]
      rw [if_neg (fun hc => h3.2 hc.1), if_neg (fun hc => h4.2 hc.1)]
      rw [hv1, hv2, hv3, hv4, hdec]
    · simp only [List.length_cons, hblen]
      simp only [List.length_cons] at hlen ⊢
      omega

theorem hexCharVal_hexDigitChar : ∀ m, m < 16 → hexCharVal (hexDigitChar m) = m := by
  decide

theorem isHexChar_hexDigitChar : ∀ m, m < 16 → isHexChar (hexDigitChar m) = true := by
  decide

theorem hexDigitChar_b64_ok : ∀ m, m < 16 →
    (b64ValOfChar (hexDigitChar m)).isSome = true ∧ hexDigitChar m ≠ '=' := by
  decide

theorem hexDigitChar_regex : ∀ m, m < 16 →
    isBase64RegexChar (hexDigitChar m) = true := by
  decide

theorem hexDigitChar_ne_x : ∀ m, m < 16 → hexDigitChar m ≠ 'x' := by
  decide

theorem hexEncode_data : ∀ bytes : List Nat, (hexEncode bytes).data =
    bytes.flatMap (fun b => [hexDigitChar (b / 16), hexDigitChar (b % 16)]) := fun _ => rfl

theorem hexEncode_data_cons (b : Nat) (rest : List Nat) :
    (hexEncode (b :: rest)).data =
      hexDigitChar (b / 16) :: hexDigitChar (b % 16) :: (hexEncode rest).data := by
  rw [hexEncode_data, hexEncode_data, List.flatMap_cons]
  rfl

theorem hexEncode_length : ∀ bytes : List Nat,
    (hexEncode bytes).data.length = 2 * bytes.length := by
  intro bytes
  induction bytes with
  | nil => rfl
  | cons b rest ih =>
    rw [hexEncode_data_cons, List.length_cons, List.length_cons, ih, List.length_cons]
    omega

theorem hexDecodePairs_hexEncode : ∀ bytes : List Nat, (∀ x ∈ bytes, x < 256) →
    hexDecodePairs (hexEncode bytes).data = bytes := by
  intro bytes
  induction bytes with
  | nil => intro _; rfl
  | cons b rest ih =>
    intro h
    have hb : b < 256 := h b (by simp)
    rw [hexEncode_data_cons]
    rw [show hexDecodePairs (hexDigitChar (b / 16) :: hexDigitChar (b % 16) ::
      (hexEncode rest).data) = (16 * hexCharVal (hexDigitChar (b / 16)) +
        hexCharVal (hexDigitChar (b % 16))) :: hexDecodePairs (hexEncode rest).data from rfl]
    rw [hexCharVal_hexDigitChar (b / 16) (by omega), hexCharVal_hexDigitChar (b % 16) (by omega)]
    rw [ih (fun x hx => h x (by simp [hx]))]
    have : 16 * (b / 16) + b % 16 = b := by omega
    rw [this]

theorem hexEncode_chars : ∀ bytes : List Nat, (∀ x ∈ bytes, x < 256) →
    ∀ c ∈ (hexEncode bytes).data, isHexChar c = true := by
  intro bytes
  induction bytes with
  | nil => intro _ c hc; cases hc
  | cons b rest ih =>
    intro h c hc
    have hb : b < 256 := h b (by simp)
    rw [hexEncode_data_cons] at hc
    simp only [List.mem_cons] at hc
    rcases hc with rfl | rfl | hc
    · exact isHexChar_hexDigitChar (b / 16) (by omega)
    · exact isHexChar_hexDigitChar (b % 16) (by omega)
    · exact ih (fun x hx => h x (by simp [hx])) c hc

theorem hexEncode_chars_shape : ∀ bytes : List Nat, (∀ x ∈ bytes, x < 256) →
    ∀ c ∈ (hexEncode bytes).data, ∃ m, m < 16 ∧ c = hexDigitChar m := by
  intro bytes
  induction bytes with
  | nil => intro _ c hc; cases hc
  | cons b rest ih =>
    intro h c hc
    have hb : b < 256 := h b (by simp)
    rw [hexEncode_data_cons] at hc
    simp only [List.mem_cons] at hc
    rcases hc with rfl | rfl | hc
    · exact ⟨b / 16, by omega, rfl⟩
    · exact ⟨b % 16, by omega, rfl⟩
    · exact ih (fun x hx => h x (by simp [hx])) c hc

theorem signatureFromBase58_encode (sig : List Nat) (hlen : sig.length = 64)
    (hb : ∀ x ∈ sig, x < 256) :
    signatureFromBase58 (base58Encode sig) = some sig := by
  rw [signatureFromBase58, base58_roundtrip sig hb]
  dsimp only
  rw [if_pos hlen]

theorem signatureFromBase64_encode (sig : List Nat) (hlen : sig.length = 64)
    (hb : ∀ x ∈ sig, x < 256) :
    signatureFromBase64 (base64Encode sig) = some sig := by
  have hdata : (base64Encode sig).data = base64EncodeCore sig := rfl
  have hlen88 : (base64EncodeCore sig).length = 88 := by
    rw [base64EncodeCore_length, hlen]
  have hne : (base64EncodeCore sig).isEmpty = false := by
    cases hi : (base64EncodeCore sig).isEmpty
    · rfl
    · rw [List.isEmpty_iff] at hi
      rw [hi] at hlen88
      cases hlen88
  have hall : (base64EncodeCore sig).all isBase64RegexChar = true :=
    List.all_eq_true.mpr (base64EncodeCore_chars sig hb)
  rw [signatureFromBase64, hdata]
  rw [if_pos ⟨by rw [hne]; rfl, hall, by rw [hlen88]⟩]
  rw [base64_roundtrip sig hb]
  dsimp only
  rw [if_pos hlen]

theorem signatureFromBase58_of_base64 (sig : List Nat) (hlen : sig.length = 64) :
    signatureFromBase58 (base64Encode sig) = none := by
  have hpad : '=' ∈ (base64Encode sig).data :=
    base64EncodeCore_mem_pad sig (by rw [hlen]; decide)
  have hnone : base58Decode (base64Encode sig) = none := by
    rw [base58Decode, decodeChars_none_of_mem hpad (show b58DigitOfChar '=' = none by decide)]
  rw [signatureFromBase58, hnone]

theorem signatureFromBase58_of_hex (sig : List Nat) (hlen : sig.length = 64) :
    signatureFromBase58 (hexEncode sig) = none := by
  rw [signatureFromBase58]
  cases hdec : base58Decode (hexEncode sig) with
  | none => rfl
  | some d =>
    have hne := base58Decode_length_ne_64 hdec (by rw [hexEncode_length, hlen])
    dsimp only
    rw [if_neg hne]

theorem signatureFromBase64_of_hex (sig : List Nat) (hlen : sig.length = 64)
    (hb : ∀ x ∈ sig, x < 256) :
    signatureFromBase64 (hexEncode sig) = none := by
  have hdata128 : (hexEncode sig).data.length = 128 := by
    rw [hexEncode_length, hlen]
  have hvalid : ∀ c ∈ (hexEncode sig).data, (b64ValOfChar c).isSome ∧ c ≠ '=' := by
    intro c hc
    obtain ⟨m, hm, rfl⟩ := hexEncode_chars_shape sig hb c hc
    have := hexDigitChar_b64_ok m hm
    exact ⟨this.1, this.2⟩
  obtain ⟨bytes, hdec, hblen⟩ := base64DecodeCore_no_pad (hexEncode sig).data hvalid
    (by rw [hdata128])
  rw [hdata128] at hblen
  have hne : (hexEncode sig).data.isEmpty = false := by
    cases hi : (hexEncode sig).data.isEmpty
    · rfl
    · rw [List.isEmpty_iff] at hi
      rw [hi] at hdata128
      cases hdata128
  have hall : (hexEncode sig).data.all isBase64RegexChar = true := by
    apply List.all_eq_true.mpr
    intro c hc
    obtain ⟨m, hm, rfl⟩ := hexEncode_chars_shape sig hb c hc
    exact hexDigitChar_regex m hm
  rw [signatureFromBase64]
  rw [if_pos ⟨by rw [hne]; rfl, hall, by rw [hdata128]⟩]
  rw [hdec]
  dsimp only
  rw [if_neg (by omega : ¬ bytes.length = 64)]

theorem stripHex0x_id {c1 c2 : Char} (l : List Char) (h : c2 ≠ 'x') :
    stripHex0x (c1 :: c2 :: l) = c1 :: c2 :: l := by
  rw [stripHex0x.eq_def]
  split
  · rename_i heq
    injection heq with h1 h2
    injection h2 with h2 _
    exact absurd h2 h
  · rfl

theorem isEmpty_false_of_length {α : Type} {l : List α} {n : Nat}
    (h : l.length = n) (hn : n ≠ 0) : l.isEmpty = false := by
  cases hi : l.isEmpty
  · rfl
  · rw [List.isEmpty_iff] at hi
    rw [hi] at h
    simp at h
    omega

theorem signatureFromHex_encode (sig : List Nat) (hlen : sig.length = 64)
    (hb : ∀ x ∈ sig, x < 256) :
    signatureFromHex (hexEncode sig) = some sig := by
  cases sig with
  | nil => cases hlen
  | cons b rest =>
    have hb' : b < 256 := hb b (by simp)
    have hdall : (hexEncode (b :: rest)).data.all isHexChar = true :=
      List.all_eq_true.mpr (hexEncode_chars _ hb)
    have hlen128 : (hexEncode (b :: rest)).data.length = 128 := by
      rw [hexEncode_length, hlen]
    have hstrip : stripHex0x ((hexEncode (b :: rest)).data) =
        (hexEncode (b :: rest)).data := by
      rw [hexEncode_data_cons]
      exact stripHex0x_id _ (hexDigitChar_ne_x (b % 16) (by omega))
    have hnemp : (hexEncode (b :: rest)).data.isEmpty = false :=
      isEmpty_false_of_length hlen128 (by omega)
    rw [signatureFromHex]
    rw [hstrip]
    rw [if_pos ⟨by rw [hnemp]; rfl, hdall, by rw [hnemp]; rfl⟩]
    rw [if_pos hlen128]
    rw [hexDecodePairs_hexEncode _ hb]

theorem data_0x_append (s : String) : ("0x" ++ s).data = '0' :: 'x' :: s.data := by
  rw [String.data_append]
  rfl

theorem signatureFromHex_0x (sig : List Nat) (hlen : sig.length = 64)
    (hb : ∀ x ∈ sig, x < 256) :
    signatureFromHex ("0x" ++ hexEncode sig) = some sig := by
  have hlen128 : (hexEncode sig).data.length = 128 := by
    rw [hexEncode_length, hlen]
  have hdall : (hexEncode sig).data.all isHexChar = true :=
    List.all_eq_true.mpr (hexEncode_chars _ hb)
  have hnemp : (hexEncode sig).data.isEmpty = false :=
    isEmpty_false_of_length hlen128 (by omega)
  rw [signatureFromHex]
  rw [data_0x_append]
  rw [show stripHex0x ('0' :: 'x' :: (hexEncode sig).data) =
    (hexEncode sig).data from rfl]
  rw [if_pos ⟨rfl, hdall, by rw [hnemp]; rfl⟩]
  rw [if_pos hlen128]
  rw [hexDecodePairs_hexEncode _ hb]

theorem signatureFromBase58_0x (sig : List Nat) :
    signatureFromBase58 ("0x" ++ hexEncode sig) = none := by
  have h0 : '0' ∈ ("0x" ++ hexEncode sig).data := by
    rw [data_0x_append]
    simp
  have hnone : base58Decode ("0x" ++ hexEncode sig) = none := by
    rw [base58Decode, decodeChars_none_of_mem h0 (show b58DigitOfChar '0' = none by decide)]
  rw [signatureFromBase58, hnone]

theorem signatureFromBase64_0x (sig : List Nat) (hlen : sig.length = 64) :
    signatureFromBase64 ("0x" ++ hexEncode sig) = none := by
  have hlen130 : ("0x" ++ hexEncode sig).data.length = 130 := by
    rw [data_0x_append, List.length_cons, List.length_cons, hexEncode_length, hlen]
  rw [signatureFromBase64]
  rw [if_neg (fun hc => by
    have h3 := hc.2.2
    rw [hlen130] at h3
    omega)]

/-- C8 (amended): the Solana signature decoder returns the raw 64
signature bytes for every 64-byte signature in base58, base64, and
0x-prefixed or bare hex, trying base58, then base64, then hex; the NEAR
signature decoder accepts base64 and the two hex forms only, not base58;
and a string matching none of a decoder's accepted patterns — for NEAR,
failing the base64 character-class and length-multiple-of-4 prefilter and
failing the hex branch (pattern or 128-digit length); for Solana,
additionally failing the base58 branch (alphabet or 64-byte decoded
length) — is rejected with that decoder's descriptive error rather than
silently truncated. -/
theorem c8_signature_decoders :
    (∀ sig : List Nat, sig.length = 64 → (∀ x ∈ sig, x < 256) →
      decodeSignatureSolana (base58Encode sig) = .ok sig ∧
      decodeSignatureSolana (base64Encode sig) = .ok sig ∧
      decodeSignatureSolana (hexEncode sig) = .ok sig ∧
      decodeSignatureSolana ("0x" ++ hexEncode sig) = .ok sig ∧
      decodeSignatureNear (base64Encode sig) = .ok sig ∧
      decodeSignatureNear (hexEncode sig) = .ok sig ∧
      decodeSignatureNear ("0x" ++ hexEncode sig) = .ok sig) ∧
    (∀ s : String,
      ¬(!s.data.isEmpty ∧ s.data.all isBase64RegexChar ∧ s.data.length % 4 = 0) →
      signatureFromHex s = none →
      decodeSignatureNear s = .error
        "Invalid signature format. Expected base64 or hex-encoded 64-byte signature.") ∧
    (∀ s : String, signatureFromBase58 s = none →
      ¬(!s.data.isEmpty ∧ s.data.all isBase64RegexChar ∧ s.data.length % 4 = 0) →
      signatureFromHex s = none →
      decodeSignatureSolana s = .error
        "Invalid signature format. Expected base58, base64, or hex-encoded 64-byte signature.") := by
  refine ⟨?_, ?_, ?_⟩
  · intro sig hlen hb
    refine ⟨?_, ?_, ?_, ?_, ?_, ?_, ?_⟩
    · rw [decodeSignatureSolana, signatureFromBase58_encode sig hlen hb]
    · rw [decodeSignatureSolana, signatureFromBase58_of_base64 sig hlen,
        signatureFromBase64_encode sig hlen hb]
    · rw [decodeSignatureSolana, signatureFromBase58_of_hex sig hlen,
        signatureFromBase64_of_hex sig hlen hb, signatureFromHex_encode sig hlen hb]
    · rw [decodeSignatureSolana, signatureFromBase58_0x sig,
        signatureFromBase64_0x sig hlen, signatureFromHex_0x sig hlen hb]
    · rw [decodeSignatureNear, signatureFromBase64_encode sig hlen hb]
    · rw [decodeSignatureNear, signatureFromBase64_of_hex sig hlen hb,
        signatureFromHex_encode sig hlen hb]
    · rw [decodeSignatureNear, signatureFromBase64_0x sig hlen,
        signatureFromHex_0x sig hlen hb]
  · intro s hpre hhex
    have h64 : signatureFromBase64 s = none := by
      rw [signatureFromBase64, if_neg hpre]
    rw [decodeSignatureNear, h64, hhex]
  · intro s h58 hpre hhex
    have h64 : signatureFromBase64 s = none := by
      rw [signatureFromBase64, if_neg hpre]
    rw [decodeSignatureSolana, h58, h64, hhex]

/-- C8 counterexample: the claim as stated fails for the NEAR decoder
(src/utils/nearSignature.ts): a valid base58 encoding of a 64-byte
signature is rejected with the decoder error even though base58Decode
recovers exactly those 64 bytes. -/
theorem c8_near_decoder_rejects_base58 :
    decodeSignatureNear (base58Encode (List.replicate 63 0 ++ [1])) =
      .error "Invalid signature format. Expected base64 or hex-encoded 64-byte signature." ∧
    (List.replicate 63 0 ++ [1] : List Nat).length = 64 ∧
    base58Decode (base58Encode (List.replicate 63 0 ++ [1])) =
      some (List.replicate 63 0 ++ [1]) := by
  refine ⟨rfl, by decide, ?_⟩
  exact base58_roundtrip _ (by decide)

theorem c8_signature_decoders_witness :
    (decodeSignatureSolana (base58Encode (List.replicate 64 7)) = .ok (List.replicate 64 7) ∧
      decodeSignatureSolana (base64Encode (List.replicate 64 7)) = .ok (List.replicate 64 7) ∧
      decodeSignatureSolana (hexEncode (List.replicate 64 7)) = .ok (List.replicate 64 7) ∧
      decodeSignatureSolana ("0x" ++ hexEncode (List.replicate 64 7)) = .ok (List.replicate 64 7) ∧
      decodeSignatureNear (base64Encode (List.replicate 64 7)) = .ok (List.replicate 64 7) ∧
      decodeSignatureNear (hexEncode (List.replicate 64 7)) = .ok (List.replicate 64 7) ∧
      decodeSignatureNear ("0x" ++ hexEncode (List.replicate 64 7)) = .ok (List.replicate 64 7)) ∧
    decodeSignatureNear "zz" = .error
      "Invalid signature format. Expected base64 or hex-encoded 64-byte signature." ∧
    decodeSignatureSolana "zz" = .error
      "Invalid signature format. Expected base58, base64, or hex-encoded 64-byte signature." :=
  ⟨c8_signature_decoders.1 (List.replicate 64 7) (by decide) (by decide),
   c8_signature_decoders.2.1 "zz" (by decide) rfl,
   c8_signature_decoders.2.2 "zz" rfl (by decide) rfl⟩
